import Mathlib

/-!
# Verification of the goas schema-resolution and directive-parsing engine

This file is a shallow embedding, in Lean 4, of the core of the `goas`
OpenAPI generator: the schema resolver (`parseSchemaObject`, `registerType`,
the struct-field/tag merger) and the comment-directive parsers
(`parseParamComment`, `parseRouteComment`, `parseInfo`, the response status
checks, `parseServerVariableComment`, …), translated from the Go source
(`parser.go`, `pkg/types/oas-types.go`, `internal/util/oas.go`).

Modelling conventions:
* Go maps keyed by strings become association lists (`List (String × α)`);
  the ordered property map (`ChainedOrderedMap`) becomes an association list
  whose order is insertion order, with `Set` replacing in place.
* The mutually recursive resolver is fuel-indexed: every call consumes one
  unit of fuel, and running out of fuel is the distinguished outcome
  `PErr.fuel` (used to reason about non-termination of the Go original).
* `log.Fatalf` and Go panics are modelled as `PErr.msg` errors carrying the
  formatted message (the Go program halts there; no caller observes a
  state afterwards either way).
* Struct tags arrive already key-value decoded (`reflect.StructTag.Get`
  semantics are lookup in the association list, absent keys give `""`).
* Small Go standard-library functions used by the parser (`strconv.Atoi`,
  `strconv.ParseBool`, `strconv.ParseFloat`, `strings.EqualFold`,
  `url.ParseRequestURI`, `encoding/json` unmarshalling) are modelled by
  executable Lean functions over ASCII strings, faithful on the inputs the
  parser feeds them.
-/

namespace Goas

/-! ## Go standard-library models -/

/-- Go `\w` (RE2): ASCII letters, digits, underscore. -/
def goIsWordChar (c : Char) : Bool :=
  (('a' ≤ c && c ≤ 'z') || ('A' ≤ c && c ≤ 'Z') || ('0' ≤ c && c ≤ '9') || c = '_')

/-- Go `\s` (RE2): space, tab, newline, carriage return, form feed, vertical tab. -/
def goIsSpace (c : Char) : Bool :=
  (c = ' ' || c = '\t' || c = '\n' || c = '\r' || c = '\x0c' || c = '\x0b')

/-- `strings.ToLower`, ASCII. -/
def goToLower (s : String) : String := ⟨s.data.map Char.toLower⟩

/-- `strings.ToUpper`, ASCII. -/
def goToUpper (s : String) : String := ⟨s.data.map Char.toUpper⟩

/-- `strings.Join`. -/
def goJoin (sep : String) : List String → String
  | [] => ""
  | [x] => x
  | x :: xs => x ++ sep ++ goJoin sep xs

/-- `strings.EqualFold`, restricted to ASCII case folding. -/
def goEqualFold (a b : String) : Bool :=
  goToLower a == goToLower b

/-- One decimal digit. -/
def goDigit? (c : Char) : Option Nat :=
  if ('0' ≤ c && c ≤ '9') then some (c.toNat - '0'.toNat) else none

/-- Digits of a decimal numeral, most significant first. -/
def goDigitsVal : List Char → Option Nat
  | [] => some 0
  | c :: cs =>
    match goDigit? c, goDigitsVal cs with
    | some d, some rest => some (d * 10 ^ cs.length + rest)
    | _, _ => none

/-- `strconv.Atoi`: optional sign then one or more digits, nothing else.
(Bit-width overflow is not modelled; no claim involves numbers near 2^63.) -/
def goAtoi? (s : String) : Option Int :=
  match s.data with
  | [] => none
  | '+' :: rest =>
    if rest.isEmpty then none else (goDigitsVal rest).map Int.ofNat
  | '-' :: rest =>
    if rest.isEmpty then none else (goDigitsVal rest).map (fun n => -(Int.ofNat n))
  | l => (goDigitsVal l).map Int.ofNat

/-- `strconv.ParseBool`: the exact set of accepted literals. -/
def goParseBool? (s : String) : Option Bool :=
  if s = "1" || s = "t" || s = "T" || s = "TRUE" || s = "true" || s = "True" then some true
  else if s = "0" || s = "f" || s = "F" || s = "FALSE" || s = "false" || s = "False" then some false
  else none

/-- `strconv.ParseFloat`, on plain decimal literals `[+-]?digits[.digits]`
(the only shapes the parser's tag values use); other syntax gives `none`. -/
def goParseFloat? (s : String) : Option ℚ :=
  let core : List Char → Option ℚ := fun l =>
    match l.span (fun c => (goDigit? c).isSome) with
    | (intPart, rest) =>
      match rest with
      | [] =>
        if intPart.isEmpty then none
        else (goDigitsVal intPart).map (fun n => (n : ℚ))
      | '.' :: frac =>
        if intPart.isEmpty && frac.isEmpty then none
        else
          match goDigitsVal intPart, goDigitsVal frac with
          | some i, some f =>
            if frac.all (fun c => (goDigit? c).isSome) then
              some ((i : ℚ) + (f : ℚ) / ((10 : ℚ) ^ frac.length))
            else none
          | _, _ => none
      | _ => none
  match s.data with
  | '+' :: rest => core rest
  | '-' :: rest => (core rest).map Neg.neg
  | l => core l

/-- `strings.Contains`. -/
def goContains (s sub : String) : Bool :=
  let rec go : List Char → Bool
    | [] => sub.data.isPrefixOf []
    | c :: cs => sub.data.isPrefixOf (c :: cs) || go cs
  go s.data

/-- `strings.TrimSpace` (ASCII whitespace). -/
def goTrimSpace (s : String) : String :=
  ⟨(s.data.dropWhile goIsSpace).reverse.dropWhile goIsSpace |>.reverse⟩

/-- `strings.Split` on a single-character separator. -/
def goSplitChar (s : String) (sep : Char) : List String :=
  (s.data.splitOn sep).map (⟨·⟩)

/-- `strings.TrimLeft(s, "*")`. -/
def goTrimLeftStar (s : String) : String :=
  ⟨s.data.dropWhile (· = '*')⟩

/-- `strings.Trim(s, "\"")`. -/
def goTrimQuotes (s : String) : String :=
  ⟨(s.data.dropWhile (· = '"')).reverse.dropWhile (· = '"') |>.reverse⟩

/-- `strings.HasPrefix`. -/
def goHasPrefix (s pre : String) : Bool :=
  pre.data.isPrefixOf s.data

/-- Drop the first `n` characters (Go slicing `s[n:]` on ASCII input). -/
def goStrDrop (s : String) (n : Nat) : String :=
  ⟨s.data.drop n⟩

/-- `strings.Split(s, " ")[0]`: the prefix before the first space. -/
def firstSplitTok (s : String) : String :=
  ⟨s.data.takeWhile (· ≠ ' ')⟩

/-- `url.ParseRequestURI` success predicate, modelled as: an absolute URL
(scheme followed by `://`) or a rooted path. -/
def goURLIsRequestURI (s : String) : Bool :=
  goHasPrefix s "/" ||
    (goContains s "://" && !goHasPrefix s ":" && s ≠ "")

/-! ## JSON values (`encoding/json` model, used only by example coercion) -/

/-- The subset of Go `interface{}` values the parser stores in schemas. -/
inductive GoValue where
  | null
  | bool (b : Bool)
  | int (n : Int)
  | float (q : ℚ)
  | str (s : String)
  | arr (l : List GoValue)
  | obj (l : List (String × GoValue))
deriving Repr

/-- Fuel-indexed JSON parser covering the literal subset (no escape
sequences) that struct-tag example values can use; `none` on malformed
input, mirroring a `json.Unmarshal` error. -/
def jsonValue? : Nat → List Char → Option (GoValue × List Char)
  | 0, _ => none
  | fu + 1, l =>
    let l := l.dropWhile goIsSpace
    match l with
    | '"' :: rest =>
      let s := rest.takeWhile (· ≠ '"')
      let rest' := rest.drop s.length
      match rest' with
      | '"' :: r => some (.str ⟨s⟩, r)
      | _ => none
    | 't' :: 'r' :: 'u' :: 'e' :: r => some (.bool true, r)
    | 'f' :: 'a' :: 'l' :: 's' :: 'e' :: r => some (.bool false, r)
    | 'n' :: 'u' :: 'l' :: 'l' :: r => some (.null, r)
    | '[' :: rest =>
      let rest := rest.dropWhile goIsSpace
      match rest with
      | ']' :: r => some (.arr [], r)
      | _ =>
        let rec items (fu : Nat) (l : List Char) (acc : List GoValue) :
            Option (GoValue × List Char) :=
          match fu with
          | 0 => none
          | fu + 1 =>
            match jsonValue? fu l with
            | none => none
            | some (v, r) =>
              let r := r.dropWhile goIsSpace
              match r with
              | ',' :: r' => items fu r' (acc ++ [v])
              | ']' :: r' => some (.arr (acc ++ [v]), r')
              | _ => none
        items fu rest []
    | '{' :: rest =>
      let rest := rest.dropWhile goIsSpace
      match rest with
      | '}' :: r => some (.obj [], r)
      | _ =>
        let rec fieldsP (fu : Nat) (l : List Char) (acc : List (String × GoValue)) :
            Option (GoValue × List Char) :=
          match fu with
          | 0 => none
          | fu + 1 =>
            let l := l.dropWhile goIsSpace
            match l with
            | '"' :: rest =>
              let k := rest.takeWhile (· ≠ '"')
              let rest' := rest.drop k.length
              match rest' with
              | '"' :: r =>
                let r := r.dropWhile goIsSpace
                match r with
                | ':' :: r' =>
                  match jsonValue? fu r' with
                  | none => none
                  | some (v, r2) =>
                    let r2 := r2.dropWhile goIsSpace
                    match r2 with
                    | ',' :: r3 => fieldsP fu r3 (acc ++ [(k.asString, v)])
                    | '}' :: r3 => some (.obj (acc ++ [(k.asString, v)]), r3)
                    | _ => none
                | _ => none
              | _ => none
            | _ => none
        fieldsP fu rest []
    | _ =>
      let signed : Bool × List Char :=
        match l with
        | '-' :: r => (true, r)
        | r => (false, r)
      let sign := signed.1
      let l' := signed.2
      let digits := l'.takeWhile (fun c => (goDigit? c).isSome || c = '.')
      if digits.isEmpty then none
      else
        let r := l'.drop digits.length
        if digits.contains '.' then
          match goParseFloat? ⟨digits⟩ with
          | some q => some (.float (if sign then -q else q), r)
          | none => none
        else
          match goDigitsVal digits with
          | some n => some (.float (if sign then -(n : ℚ) else (n : ℚ)), r)
          | none => none

/-- `json.Unmarshal` into `[]interface{}`. -/
def goJSONUnmarshalArr? (s : String) : Option (List GoValue) :=
  match jsonValue? (s.length + 1) s.data with
  | some (.arr l, rest) => if (rest.dropWhile goIsSpace).isEmpty then some l else none
  | _ => none

/-- `json.Unmarshal` into `map[string]interface{}`. -/
def goJSONUnmarshalObj? (s : String) : Option (List (String × GoValue)) :=
  match jsonValue? (s.length + 1) s.data with
  | some (.obj l, rest) => if (rest.dropWhile goIsSpace).isEmpty then some l else none
  | _ => none

end Goas

namespace Goas

/-! ## Data model (`pkg/types/oas-types.go`) -/

/-- The scalar (non-recursive) fields of `types.SchemaObject`. Defaults are
the Go zero values. -/
structure SchemaAttrs where
  id : String := ""
  pkgName : String := ""
  fieldName : String := ""
  disabledFieldNames : List String := []
  typ : String := ""
  format : String := ""
  required : List String := []
  description : String := ""
  «example» : Option GoValue := none
  deprecated : Bool := false
  title : String := ""
  multipleOf : Option GoValue := none
  minimum : Option GoValue := none
  maximum : Option GoValue := none
  exclusiveMinimum : Bool := false
  exclusiveMaximum : Bool := false
  maxLength : Option GoValue := none
  minLength : Option GoValue := none
  pattern : String := ""
  maxItems : Int := 0
  minItems : Int := 0
  uniqueItems : Bool := false
  maxProperties : Int := 0
  minProperties : Int := 0
  enum : List String := []
  allOf : List String := []
  oneOf : List String := []
  anyOf : List String := []
  discriminator : Option String := none
  ref : String := ""
deriving Repr

/-- `types.SchemaObject`: scalar attributes plus the recursive
`Properties` ordered map and `Items` child. `allOf`/`oneOf`/`anyOf` store
the reference strings of the Go `[]*ReferenceObject`. -/
inductive SchemaObject where
  | mk (attrs : SchemaAttrs)
       (properties : Option (List (String × SchemaObject)))
       (items : Option SchemaObject)
deriving Repr

def SchemaObject.attrs : SchemaObject → SchemaAttrs
  | .mk a _ _ => a

def SchemaObject.properties : SchemaObject → Option (List (String × SchemaObject))
  | .mk _ p _ => p

def SchemaObject.items : SchemaObject → Option SchemaObject
  | .mk _ _ i => i

/-- Update the scalar attributes in place. -/
def SchemaObject.withAttrs (f : SchemaAttrs → SchemaAttrs) : SchemaObject → SchemaObject
  | .mk a p i => .mk (f a) p i

def SchemaObject.setProperties (p : Option (List (String × SchemaObject))) :
    SchemaObject → SchemaObject
  | .mk a _ i => .mk a p i

def SchemaObject.setItems (i : Option SchemaObject) : SchemaObject → SchemaObject
  | .mk a p _ => .mk a p i

/-- `&types.SchemaObject{}` (all zero values). -/
def SchemaObject.empty : SchemaObject := .mk {} none none

/-! Association-list operations standing in for Go maps and the ordered
property map. `omSet` is `ChainedOrderedMap.Set`: replace in place when the
key exists, append otherwise (insertion order preserved). -/

def lookupStr {α : Type} (k : String) : List (String × α) → Option α
  | [] => none
  | (k', v) :: rest => if k' = k then some v else lookupStr k rest

def omSet {α : Type} (k : String) (v : α) : List (String × α) → List (String × α)
  | [] => [(k, v)]
  | (k', v') :: rest =>
    if k' = k then (k', v) :: rest else (k', v') :: omSet k v rest

/-- Guarded insert: leaves the map unchanged when the key is present
(the registration discipline of `OpenAPI.Components.Schemas`). -/
def insertIfAbsent {α : Type} (k : String) (v : α) (l : List (String × α)) :
    List (String × α) :=
  match lookupStr k l with
  | some _ => l
  | none => l ++ [(k, v)]

/-! ## Fixed type tables (`pkg/types/oas-types.go`, `internal/util/oas.go`) -/

def basicGoTypes : List String :=
  ["bool", "uint", "uint8", "uint16", "uint32", "uint64",
   "int", "int8", "int16", "int32", "int64",
   "float32", "float64", "string", "complex64", "complex128",
   "byte", "rune", "uintptr", "error"]

/-- `types.IsBasicGoType`. -/
def IsBasicGoType (typeName : String) : Bool :=
  basicGoTypes.contains typeName

/-- `types.GoTypesOASTypes`. -/
def GoTypesOASTypes : List (String × String) :=
  [("bool", "boolean"),
   ("uint", "integer"), ("uint8", "integer"), ("uint16", "integer"),
   ("uint32", "integer"), ("uint64", "integer"),
   ("int", "integer"), ("int8", "integer"), ("int16", "integer"),
   ("int32", "integer"), ("int64", "integer"),
   ("float32", "number"), ("float64", "number"),
   ("string", "string")]

/-- `types.IsGoTypeOASType`. -/
def IsGoTypeOASType (typeName : String) : Bool :=
  (lookupStr typeName GoTypesOASTypes).isSome

def goTypesOASTypesGet (typeName : String) : String :=
  (lookupStr typeName GoTypesOASTypes).getD ""

/-- Modelled from the spec: `types.GoTypesOASFormats` is referenced by the
parser but its definition is not among the provided source files. The
spec's literal round-trip scenario fixes `string ↦ string` (schema
`{type: string, format: string}`), and the repository's tests expect
`int64 ↦ int64`; the map is therefore modelled as sending every basic
convertible Go type name to itself. -/
def GoTypesOASFormats : List (String × String) :=
  GoTypesOASTypes.map (fun p => (p.1, p.1))

def goTypesOASFormatsGet (typeName : String) : String :=
  (lookupStr typeName GoTypesOASFormats).getD ""

/-- `util.ReplaceBackslash`. -/
def ReplaceBackslash (origin : String) : String :=
  ⟨origin.data.map (fun c => if c = '\\' then '/' else c)⟩

/-- `util.AddSchemaRefLinkPrefix`. -/
def AddSchemaRefLinkPrefix (name : String) : String :=
  if goHasPrefix name "#/components/schemas/" then ReplaceBackslash name
  else ReplaceBackslash ("#/components/schemas/" ++ name)

/-- `util.GenSchemaObjectID`: last dot-separated segment. -/
def GenSchemaObjectID (typeName : String) : String :=
  (goSplitChar typeName '.').getLastD ""

/-! Constants from `pkg/types/oas-types.go`. -/

def ContentTypeText : String := "text/plain"
def ContentTypeJSON : String := "application/json"
def ContentTypeForm : String := "multipart/form-data"
def KeywordRequired : String := "required"
def InFile : String := "file"
def InFiles : String := "files"
def InForm : String := "form"
def InBody : String := "body"
def InPath : String := "path"
def TypeBoolean : String := "boolean"
def TypeInteger : String := "integer"
def TypeNumber : String := "number"
def TypeObject : String := "object"
def TypeArray : String := "array"
def DefaultFieldName : String := "key"
def GoTypeTime : String := "time.Time"
def GoTypeIgnored : String := "ignored"
def MessageInvalidExample : String := "invalid example"

end Goas

namespace Goas

/-! ## Go AST fragment (`go/ast`) used by the resolver -/

mutual
/-- The shapes of `ast.Expr` the parser dispatches on
(`getTypeAsString`, `parseSchemaObject`). -/
inductive AstType where
  | ident (name : String)
  | structType (fields : List AstField)
  | arrayType (elt : AstType)
  | mapType (value : AstType)
  | interfaceType
  | star (x : AstType)
  | selector (pkgAlias sel : String)

/-- `ast.Field`: names (empty for an embedded field), type, and the struct
tag already decoded into key/value pairs (`reflect.StructTag` lookup). -/
inductive AstField where
  | mk (names : List String) (typ : AstType) (tag : Option (List (String × String)))
end

def AstField.names : AstField → List String
  | .mk ns _ _ => ns

def AstField.typ : AstField → AstType
  | .mk _ t _ => t

def AstField.tag : AstField → Option (List (String × String))
  | .mk _ _ tg => tg

/-- `reflect.StructTag.Get`: empty string when the key is absent. -/
def tagGet (tag : List (String × String)) (key : String) : String :=
  (lookupStr key tag).getD ""

/-- `reflect.StructTag.Lookup`. -/
def tagLookup (tag : List (String × String)) (key : String) : Option String :=
  lookupStr key tag

/-- `ast.TypeSpec`: declared type plus its doc-comment lines (`nil` doc is
`none`). -/
structure TypeSpec where
  doc : Option (List String) := none
  typ : AstType

/-- `p.getTypeAsString` (the `fmt.Sprint` fallback on a bare identifier
prints its name; other fallback shapes never occur in the dispatched AST). -/
def getTypeAsString : AstType → String
  | .arrayType elt => "[]" ++ getTypeAsString elt
  | .mapType value => "map[]" ++ getTypeAsString value
  | .interfaceType => "interface{}"
  | .star x => getTypeAsString x
  | .selector pkgAlias sel => pkgAlias ++ "." ++ sel
  | .ident name => name
  | .structType _ => "struct"

/-! ## Parser state (`type parser struct`) -/

structure Pkg where
  name : String
  path : String
deriving Repr, DecidableEq

/-- The read-only indexes built before schema resolution: `TypeSpecs`
(pkgName → typeName → spec), `KnownPkgs`, and
`PkgNameImportedPkgAlias` (pkgName → alias → candidate package names). -/
structure Env where
  typeSpecs : List (String × List (String × TypeSpec)) := []
  knownPkgs : List Pkg := []
  pkgNameImportedPkgAlias : List (String × List (String × List String)) := []

/-- `p.getTypeSpec`. -/
def getTypeSpec (env : Env) (pkgName typeName : String) :
    Option TypeSpec :=
  match lookupStr pkgName env.typeSpecs with
  | none => none
  | some pkgTypeSpecs => lookupStr typeName pkgTypeSpecs

/-! ## Operation/document objects consumed by the directive assembler -/

structure ParameterObject where
  name : String := ""
  «in» : String := ""
  description : String := ""
  required : Bool := false
  «example» : Option GoValue := none
  schema : Option SchemaObject := none
deriving Repr

structure MediaTypeObject where
  schema : SchemaObject := .empty
deriving Repr

structure RequestBodyObject where
  content : List (String × MediaTypeObject) := []
  description : String := ""
  required : Bool := false
  ref : String := ""
deriving Repr

structure OperationObject where
  parameters : List ParameterObject := []
  requestBody : Option RequestBodyObject := none
deriving Repr

structure PathItemObject where
  get : Option OperationObject := none
  post : Option OperationObject := none
  patch : Option OperationObject := none
  put : Option OperationObject := none
  delete : Option OperationObject := none
  options : Option OperationObject := none
  head : Option OperationObject := none
  trace : Option OperationObject := none
deriving Repr

/-- The mutable registries of the run: the by-ID memo `KnownIDSchema`, the
output registry `OpenAPI.Components.Schemas`, and `OpenAPI.Paths`. -/
structure PState where
  knownIDSchema : List (String × SchemaObject) := []
  componentsSchemas : List (String × SchemaObject) := []
  paths : List (String × PathItemObject) := []

/-- Errors of the embedded run: a Go `error`/`log.Fatalf`/panic message, or
exhaustion of the recursion fuel (marking divergence of the original). -/
inductive PErr where
  | fuel
  | msg (s : String)
deriving Repr, DecidableEq

end Goas

namespace Goas

/-- Result of a stateful parser step. -/
abbrev PRes (α : Type) := Except PErr (α × PState)

/-- Mirror an in-place mutation of a registered schema node into the by-ID
memo (in Go the memo holds a pointer to the node, so mutations are visible
through it; the mirror points are pre-registration, the start of structural
population, and completion). -/
def memoSet (id : String) (so : SchemaObject) (st : PState) : PState :=
  { st with knownIDSchema := omSet id so st.knownIDSchema }

/-- `p.parseSchemaComments` (doc-comment `@Title`/`@Description` on a type). -/
def parseSchemaComments (lines : List String) (so : SchemaObject) : SchemaObject :=
  lines.foldl (fun so comment =>
    let comment := goTrimSpace ⟨(comment.data.dropWhile (· = '/')).reverse.dropWhile (· = '/') |>.reverse⟩
    let attr := goToLower (firstSplitTok comment)
    if attr = "" || attr.data.headD ' ' ≠ '@' then so
    else
      let value := goTrimSpace (goStrDrop comment attr.length)
      if value = "" then so
      else if attr = "@title" then so.withAttrs (fun a => { a with title := value })
      else if attr = "@description" then so.withAttrs (fun a => { a with description := value })
      else so) so

/-- Prefix-wrap an error the way `fmt.Errorf("%s: %v", …)` does; fuel
exhaustion (divergence) is preserved. -/
def wrapErr (pre : String) : PErr → PErr
  | .fuel => .fuel
  | .msg m => .msg (pre ++ ": " ++ m)

/-- The name under which a `json:"…,-"` opt-out disables the field: renames
seen before the `-` entry apply first (the Go loop `continue`s out at `-`). -/
def jsonNameBeforeDash (values : List String) (name : String) : String :=
  (values.takeWhile (· ≠ "-")).foldl (fun name v =>
    if v ≠ "" && v ≠ KeywordRequired && v ≠ "omitempty" then v else name) name

/-- `p.handleExample` (type-directed coercion of the `example` tag). -/
def handleExample (astFieldTag : List (String × String)) (fieldSchema : SchemaObject) :
    SchemaObject :=
  let tag := tagGet astFieldTag "example"
  if tag ≠ "" then
    let fieldSchema :=
      if fieldSchema.attrs.typ = TypeBoolean then
        fieldSchema.withAttrs (fun a => { a with «example» := some (.bool ((goParseBool? tag).getD false)) })
      else if fieldSchema.attrs.typ = TypeInteger then
        fieldSchema.withAttrs (fun a => { a with «example» := some (.int ((goAtoi? tag).getD 0)) })
      else if fieldSchema.attrs.typ = TypeNumber then
        fieldSchema.withAttrs (fun a => { a with «example» := some (.float ((goParseFloat? tag).getD 0)) })
      else if fieldSchema.attrs.typ = TypeArray then
        match goJSONUnmarshalArr? tag with
        | some l => fieldSchema.withAttrs (fun a => { a with «example» := some (.arr l) })
        | none => fieldSchema.withAttrs (fun a => { a with «example» := some (.str MessageInvalidExample) })
      else if fieldSchema.attrs.typ = TypeObject then
        match goJSONUnmarshalObj? tag with
        | some l => fieldSchema.withAttrs (fun a => { a with «example» := some (.obj l) })
        | none => fieldSchema.withAttrs (fun a => { a with «example» := some (.str MessageInvalidExample) })
      else
        fieldSchema.withAttrs (fun a => { a with «example» := some (.str tag) })
    if (fieldSchema.attrs.«example»).isSome && fieldSchema.attrs.ref ≠ "" then
      fieldSchema.withAttrs (fun a => { a with ref := "" })
    else fieldSchema
  else fieldSchema

/-- `p.handleMultipleOf`: numeric fields only, hard error otherwise. -/
def handleMultipleOf (astFieldTag : List (String × String)) (fieldSchema : SchemaObject) :
    Except PErr SchemaObject :=
  let multipleOf := tagGet astFieldTag "multipleOf"
  if multipleOf ≠ "" then
    if fieldSchema.attrs.typ = TypeInteger then
      .ok (fieldSchema.withAttrs (fun a => { a with multipleOf := some (.int ((goAtoi? multipleOf).getD 0)) }))
    else if fieldSchema.attrs.typ = TypeNumber then
      .ok (fieldSchema.withAttrs (fun a => { a with multipleOf := some (.float ((goParseFloat? multipleOf).getD 0)) }))
    else
      .error (.msg ("unable to parse multipleOf value: " ++ multipleOf))
  else .ok fieldSchema

/-- `p.handleRange` (`minimum`/`maximum`/exclusivity flags). -/
def handleRange (astFieldTag : List (String × String)) (fieldSchema : SchemaObject) :
    Except PErr SchemaObject :=
  let step1 : Except PErr SchemaObject :=
    let min := tagGet astFieldTag "minimum"
    if min ≠ "" then
      if fieldSchema.attrs.typ = TypeInteger then
        .ok (fieldSchema.withAttrs (fun a => { a with minimum := some (.int ((goAtoi? min).getD 0)) }))
      else if fieldSchema.attrs.typ = TypeNumber then
        .ok (fieldSchema.withAttrs (fun a => { a with minimum := some (.float ((goParseFloat? min).getD 0)) }))
      else
        .error (.msg ("unable to parse minimum value: " ++ min))
    else .ok fieldSchema
  match step1 with
  | .error e => .error e
  | .ok fieldSchema =>
    let step2 : Except PErr SchemaObject :=
      let max := tagGet astFieldTag "maximum"
      if max ≠ "" then
        if fieldSchema.attrs.typ = TypeInteger then
          .ok (fieldSchema.withAttrs (fun a => { a with maximum := some (.int ((goAtoi? max).getD 0)) }))
        else if fieldSchema.attrs.typ = TypeNumber then
          .ok (fieldSchema.withAttrs (fun a => { a with maximum := some (.float ((goParseFloat? max).getD 0)) }))
        else
          .error (.msg ("unable to parse maximum value: " ++ max))
      else .ok fieldSchema
    match step2 with
    | .error e => .error e
    | .ok fieldSchema =>
      let fieldSchema :=
        if tagGet astFieldTag "exclusiveMinimum" ≠ "" then
          fieldSchema.withAttrs (fun a =>
            { a with exclusiveMinimum := (goParseBool? (tagGet astFieldTag "exclusiveMinimum")).getD false })
        else fieldSchema
      let fieldSchema :=
        if tagGet astFieldTag "exclusiveMaximum" ≠ "" then
          fieldSchema.withAttrs (fun a =>
            { a with exclusiveMaximum := (goParseBool? (tagGet astFieldTag "exclusiveMaximum")).getD false })
        else fieldSchema
      .ok fieldSchema

/-- `p.handleLengthMinMax`. -/
def handleLengthMinMax (astFieldTag : List (String × String)) (fieldSchema : SchemaObject) :
    SchemaObject :=
  let fieldSchema :=
    if tagGet astFieldTag "minLength" ≠ "" then
      fieldSchema.withAttrs (fun a =>
        { a with minLength := some (.int ((goAtoi? (tagGet astFieldTag "minLength")).getD 0)) })
    else fieldSchema
  if tagGet astFieldTag "maxLength" ≠ "" then
    fieldSchema.withAttrs (fun a =>
      { a with maxLength := some (.int ((goAtoi? (tagGet astFieldTag "maxLength")).getD 0)) })
  else fieldSchema

/-- `p.handleItemMinMax`. -/
def handleItemMinMax (astFieldTag : List (String × String)) (fieldSchema : SchemaObject) :
    SchemaObject :=
  let fieldSchema :=
    if tagGet astFieldTag "minItems" ≠ "" then
      fieldSchema.withAttrs (fun a => { a with minItems := (goAtoi? (tagGet astFieldTag "minItems")).getD 0 })
    else fieldSchema
  if tagGet astFieldTag "maxItems" ≠ "" then
    fieldSchema.withAttrs (fun a => { a with maxItems := (goAtoi? (tagGet astFieldTag "maxItems")).getD 0 })
  else fieldSchema

/-- `p.handlePropertyMinMax`. -/
def handlePropertyMinMax (astFieldTag : List (String × String)) (fieldSchema : SchemaObject) :
    SchemaObject :=
  let fieldSchema :=
    if tagGet astFieldTag "minProperties" ≠ "" then
      fieldSchema.withAttrs (fun a =>
        { a with minProperties := (goAtoi? (tagGet astFieldTag "minProperties")).getD 0 })
    else fieldSchema
  if tagGet astFieldTag "maxProperties" ≠ "" then
    fieldSchema.withAttrs (fun a =>
      { a with maxProperties := (goAtoi? (tagGet astFieldTag "maxProperties")).getD 0 })
  else fieldSchema

/-- `p.handleEnumTag`. -/
def handleEnumTag (astFieldTag : List (String × String)) (fieldSchema : SchemaObject) :
    SchemaObject :=
  if tagGet astFieldTag "enum" ≠ "" then
    fieldSchema.withAttrs (fun a =>
      { a with enum := goSplitChar (goTrimSpace (tagGet astFieldTag "enum")) ',' })
  else fieldSchema

mutual

/-- `p.registerType`. -/
def registerType (env : Env) : Nat → PState → String → String → String →
    Except PErr (String × PState)
  | 0, _, _, _, _ => .error .fuel
  | n + 1, st, pkgPath, pkgName, typeName =>
    if IsBasicGoType typeName then .ok (typeName, st)
    else
      match lookupStr (GenSchemaObjectID typeName) st.knownIDSchema with
      | some knownObj => .ok (knownObj.attrs.id, st)
      | none =>
        match parseSchemaObject env n st pkgPath pkgName "" typeName with
        | .error e => .error e
        | .ok (parsedObject, st1) => .ok (parsedObject.attrs.id, st1)

/-- `p.parseSchemaObject`, the core resolver. -/
def parseSchemaObject (env : Env) : Nat → PState → String → String → String → String →
    PRes SchemaObject
  | 0, _, _, _, _, _ => .error .fuel
  | n + 1, st, pkgPath, pkgName, fieldName, typeName =>
    if goHasPrefix typeName "[]" then
      let itemTypeName := goStrDrop typeName 2
      match parseSchemaObject env n st pkgPath pkgName fieldName itemTypeName with
      | .error e => .error e
      | .ok (items, st1) =>
        let so := SchemaObject.empty.withAttrs (fun a => { a with typ := TypeArray })
        match lookupStr (GenSchemaObjectID itemTypeName) st1.knownIDSchema with
        | some schema =>
          .ok (so.setItems (some (SchemaObject.empty.withAttrs
            (fun a => { a with ref := AddSchemaRefLinkPrefix schema.attrs.id }))), st1)
        | none => .ok (so.setItems (some items), st1)
    else if goHasPrefix typeName "map[]" then
      let itemTypeName := goStrDrop typeName 5
      let so := SchemaObject.empty.withAttrs (fun a => { a with typ := TypeObject })
      match lookupStr (GenSchemaObjectID itemTypeName) st.knownIDSchema with
      | some schema =>
        .ok (so.setItems (some (SchemaObject.empty.withAttrs
          (fun a => { a with ref := AddSchemaRefLinkPrefix schema.attrs.id }))), st)
      | none =>
        match parseSchemaObject env n st pkgPath pkgName fieldName itemTypeName with
        | .error e => .error e
        | .ok (schemaProperty, st1) =>
          let fieldName := if fieldName = "" then DefaultFieldName else fieldName
          .ok (so.setProperties (some (omSet fieldName schemaProperty [])), st1)
    else if typeName = GoTypeTime then
      .ok (SchemaObject.empty.withAttrs
        (fun a => { a with typ := "string", format := "date-time" }), st)
    else if goHasPrefix typeName "interface{}" then
      .ok (SchemaObject.empty, st)
    else if IsGoTypeOASType typeName then
      .ok (SchemaObject.empty.withAttrs
        (fun a => { a with typ := goTypesOASTypesGet typeName }), st)
    else
      let typeNameParts := goSplitChar typeName '.'
      if typeNameParts.length = 1 && typeNameParts.headD "" ≠ GoTypeIgnored then
        -- unqualified name: current package first, then every known package
        let found : Option (TypeSpec × String × String) :=
          match getTypeSpec env pkgName typeName with
          | some ts => some (ts, pkgPath, pkgName)
          | none =>
            match env.knownPkgs.find? (fun value => (getTypeSpec env value.name typeName).isSome) with
            | some value =>
              match getTypeSpec env value.name typeName with
              | some ts => some (ts, value.path, value.name)
              | none => none
            | none => none
        match found with
        | none =>
          .error (.msg ("Can not find definition of " ++ typeName ++
            " ast.TypeSpec. Current package " ++ pkgName))
        | some (typeSpec, pkgPath1, pkgName1) =>
          let so := SchemaObject.empty.withAttrs
            (fun a => { a with pkgName := pkgName1, id := GenSchemaObjectID typeName })
          let st1 := memoSet so.attrs.id so st
          let so := match typeSpec.doc with
            | some docLines => parseSchemaComments docLines so
            | none => so
          let st1 := memoSet so.attrs.id so st1
          parseSchemaObjectTail env n st1 pkgPath1 pkgName1 fieldName so typeSpec
      else
        -- dotted name: guess the package by substring containment, then aliases
        let guessPkgName0 := goJoin "/" typeNameParts.dropLast
        let guessed : String × String :=
          match env.knownPkgs.find? (fun p => goContains p.name guessPkgName0) with
          | some p => (p.name, p.path)
          | none => (guessPkgName0, "")
        let guessPkgName := guessed.1
        let guessPkgPath := guessed.2
        let guessTypeName := typeNameParts.getLastD ""
        match getTypeSpec env guessPkgName guessTypeName with
        | some typeSpec =>
          let so := SchemaObject.empty.withAttrs
            (fun a => { a with pkgName := guessPkgName, id := GenSchemaObjectID guessTypeName })
          let st1 := memoSet so.attrs.id so st
          let so := match typeSpec.doc with
            | some docLines => parseSchemaComments docLines so
            | none => so
          let st1 := memoSet so.attrs.id so st1
          parseSchemaObjectTail env n st1 guessPkgPath guessPkgName fieldName so typeSpec
        | none =>
          let aliases := (lookupStr pkgName env.pkgNameImportedPkgAlias).getD []
          let foundAlias :=
            match lookupStr guessPkgName aliases with
            | some candidates => !candidates.isEmpty
            | none => false
          if !foundAlias then .ok (SchemaObject.empty, st)
          else
            let guessPkgName := ((lookupStr guessPkgName aliases).getD []).headD ""
            let guessPkgPath :=
              match env.knownPkgs.find? (fun p => guessPkgName = p.name) with
              | some p => p.path
              | none => ""
            match getTypeSpec env guessPkgName guessTypeName with
            | none =>
              .error (.msg ("can not find definition of guess " ++ guessTypeName ++
                " ast.TypeSpec in package " ++ guessPkgName))
            | some typeSpec =>
              let so := SchemaObject.empty.withAttrs
                (fun a => { a with pkgName := guessPkgName, id := GenSchemaObjectID guessTypeName })
              let st1 := memoSet so.attrs.id so st
              match typeSpec.doc with
              | none =>
                -- Go dereferences typeSpec.Doc.List without a nil check here
                .error (.msg "runtime error: invalid memory address or nil pointer dereference")
              | some docLines =>
                let so := parseSchemaComments docLines so
                let st1 := memoSet so.attrs.id so st1
                parseSchemaObjectTail env n st1 guessPkgPath guessPkgName fieldName so typeSpec

/-- The shared tail of `parseSchemaObject` after a type spec is located:
the AST-shape switch followed by registration in
`OpenAPI.Components.Schemas` (idempotent insert). -/
def parseSchemaObjectTail (env : Env) : Nat → PState → String → String → String →
    SchemaObject → TypeSpec → PRes SchemaObject
  | 0, _, _, _, _, _, _ => .error .fuel
  | n + 1, st, pkgPath, pkgName, fieldName, so, typeSpec =>
    let afterSwitch : PRes SchemaObject :=
      match typeSpec.typ with
      | .structType fields => handleStructType env n st so fields pkgPath pkgName
      | .arrayType elt => handleArrayType env n st so elt pkgPath pkgName
      | .mapType value => handleMapType env n st fieldName so value pkgPath pkgName
      | _ => .ok (so, st)
    match afterSwitch with
    | .error e => .error e
    | .ok (so, st1) =>
      let st1 := memoSet so.attrs.id so st1
      let registerTypeName := so.attrs.id
      let comps := insertIfAbsent (ReplaceBackslash registerTypeName) so st1.componentsSchemas
      .ok (so, { st1 with componentsSchemas := comps })

/-- `p.handleStructType`. -/
def handleStructType (env : Env) : Nat → PState → SchemaObject → List AstField →
    String → String → PRes SchemaObject
  | 0, _, _, _, _, _ => .error .fuel
  | n + 1, st, so, fields, pkgPath, pkgName =>
    let so := so.withAttrs (fun a => { a with typ := TypeObject })
    let st := memoSet so.attrs.id so st
    parseSchemaPropertiesFromStructFields env n st pkgPath pkgName so fields

/-- `p.parseSchemaPropertiesFromStructFields` (initialisation before the
field loop). -/
def parseSchemaPropertiesFromStructFields (env : Env) : Nat → PState → String → String →
    SchemaObject → List AstField → PRes SchemaObject
  | 0, _, _, _, _, _ => .error .fuel
  | n + 1, st, pkgPath, pkgName, structSchema, astFields =>
    let structSchema := structSchema.setProperties (some [])
    let st := memoSet structSchema.attrs.id structSchema st
    structFieldsLoop env n st pkgPath pkgName structSchema astFields

/-- The per-field type-resolution if-chain at the top of the
`astFieldsLoop` body (array/map/time/interface via `parseSchemaObject`,
other non-basic types via `registerType` with the memoised type/items
copied and the type then cleared in favour of the `$ref`). -/
def resolveFieldType (env : Env) : Nat → PState → String → String → AstType →
    PRes SchemaObject
  | 0, _, _, _, _ => .error .fuel
  | n + 1, st, pkgPath, pkgName, fieldTyp =>
    let typeAsString := goTrimLeftStar (getTypeAsString fieldTyp)
    if goHasPrefix typeAsString "[]" then
      match parseSchemaObject env n st pkgPath pkgName "" typeAsString with
      | .error e => .error (wrapErr ("could not parse type " ++ typeAsString ++ " as array") e)
      | .ok r => .ok r
    else if goHasPrefix typeAsString "map[]" then
      match parseSchemaObject env n st pkgPath pkgName "" typeAsString with
      | .error e => .error (wrapErr ("could not parse type " ++ typeAsString ++ " as map") e)
      | .ok r => .ok r
    else if typeAsString = GoTypeTime then
      match parseSchemaObject env n st pkgPath pkgName "" typeAsString with
      | .error e => .error (wrapErr ("could not parse type " ++ typeAsString ++ " as time.Time") e)
      | .ok r => .ok r
    else if goHasPrefix typeAsString "interface{}" then
      match parseSchemaObject env n st pkgPath pkgName "" typeAsString with
      | .error e => .error (wrapErr ("could not parse type " ++ typeAsString ++ " as interface{}") e)
      | .ok r => .ok r
    else if !IsBasicGoType typeAsString then
      match registerType env n st pkgPath pkgName typeAsString with
      | .error e => .error (wrapErr ("could not register type " ++ typeAsString) e)
      | .ok (fieldSchemaSchemeObjectID, st1) =>
        let fieldSchema := SchemaObject.empty.withAttrs
          (fun a => { a with id := fieldSchemaSchemeObjectID })
        let fieldSchema :=
          match lookupStr fieldSchemaSchemeObjectID st1.knownIDSchema with
          | some schema =>
            let fieldSchema := fieldSchema.withAttrs
              (fun a => { a with typ := schema.attrs.typ })
            match schema.items with
            | some items => fieldSchema.setItems (some items)
            | none => fieldSchema
          | none => fieldSchema
        let fieldSchema := fieldSchema.withAttrs
          (fun a => { a with ref := AddSchemaRefLinkPrefix fieldSchemaSchemeObjectID })
        let fieldSchema :=
          if fieldSchema.attrs.typ ≠ "" then
            fieldSchema.withAttrs (fun a => { a with typ := "" })
          else fieldSchema
        .ok (fieldSchema, st1)
    else if IsGoTypeOASType typeAsString then
      .ok (SchemaObject.empty.withAttrs
        (fun a => { a with typ := goTypesOASTypesGet typeAsString }), st)
    else
      .ok (SchemaObject.empty, st)

/-- The `astFieldsLoop` of `parseSchemaPropertiesFromStructFields`. -/
def structFieldsLoop (env : Env) : Nat → PState → String → String →
    SchemaObject → List AstField → PRes SchemaObject
  | 0, _, _, _, _, _ => .error .fuel
  | _ + 1, st, _, _, structSchema, [] => .ok (structSchema, st)
  | n + 1, st, pkgPath, pkgName, structSchema, astField :: restFields =>
    if astField.names.isEmpty then
      structFieldsLoop env n st pkgPath pkgName structSchema restFields
    else
      match resolveFieldType env n st pkgPath pkgName astField.typ with
      | .error e => .error e
      | .ok (fieldSchema, st1) =>
        let name := (astField.names.headD "")
        let fieldSchema := fieldSchema.withAttrs (fun a => { a with fieldName := name })
        if (structSchema.attrs.disabledFieldNames).contains name then
          structFieldsLoop env n st1 pkgPath pkgName structSchema restFields
        else
          match astField.tag with
          | none =>
            let structSchema := structSchema.setProperties
              (some (omSet name fieldSchema ((structSchema.properties).getD [])))
            let st2 := memoSet structSchema.attrs.id structSchema st1
            structFieldsLoop env n st2 pkgPath pkgName structSchema restFields
          | some astFieldTag =>
            let tagText0 := ""
            let tagText1 := if tagGet astFieldTag "goas" ≠ "" then tagGet astFieldTag "goas" else tagText0
            let tagValues := goSplitChar tagText1 ','
            if tagValues.contains "-" then
              let structSchema := structSchema.withAttrs
                (fun a => { a with disabledFieldNames := a.disabledFieldNames ++ [name] })
              let st2 := memoSet structSchema.attrs.id structSchema st1
              structFieldsLoop env n st2 pkgPath pkgName structSchema restFields
            else
              let tagText2 := if tagGet astFieldTag "json" ≠ "" then tagGet astFieldTag "json" else tagText1
              let tagValues := goSplitChar tagText2 ','
              if tagValues.contains "-" then
                -- the rename walk stops at "-", so the name disabled is the
                -- last rename value seen before the "-" entry
                let name := jsonNameBeforeDash tagValues name
                let structSchema := structSchema.withAttrs
                  (fun a => { a with disabledFieldNames := a.disabledFieldNames ++ [name] })
                let st2 := memoSet structSchema.attrs.id structSchema st1
                structFieldsLoop env n st2 pkgPath pkgName structSchema restFields
              else
                let isRequired := tagValues.contains KeywordRequired
                let name := tagValues.foldl (fun name v =>
                  if v ≠ "" && v ≠ KeywordRequired && v ≠ "omitempty" then v else name) name
                match parseFieldTags env n st1 name astFieldTag structSchema fieldSchema isRequired with
                | .error e => .error e
                | .ok ((structSchema, fieldSchema), st2) =>
                  let structSchema := structSchema.setProperties
                    (some (omSet name fieldSchema ((structSchema.properties).getD [])))
                  let st3 := memoSet structSchema.attrs.id structSchema st2
                  structFieldsLoop env n st3 pkgPath pkgName structSchema restFields

/-- `p.parseFieldTags` (tag overlay, in the source's fixed order). -/
def parseFieldTags (env : Env) : Nat → PState → String → List (String × String) →
    SchemaObject → SchemaObject → Bool → PRes (SchemaObject × SchemaObject)
  | 0, _, _, _, _, _, _ => .error .fuel
  | n + 1, st, name, astFieldTag, structSchema, fieldSchema, isRequired =>
    let fieldSchema := handleExample astFieldTag fieldSchema
    let structSchema :=
      if (tagLookup astFieldTag "required").isSome || isRequired then
        structSchema.withAttrs (fun a => { a with required := a.required ++ [name] })
      else structSchema
    let fieldSchema :=
      if tagGet astFieldTag "description" ≠ "" then
        fieldSchema.withAttrs (fun a => { a with description := tagGet astFieldTag "description" })
      else fieldSchema
    match handleMultipleOf astFieldTag fieldSchema with
    | .error e => .error e
    | .ok fieldSchema =>
    match handleRange astFieldTag fieldSchema with
    | .error e => .error e
    | .ok fieldSchema =>
      let fieldSchema :=
        if tagGet astFieldTag "pattern" ≠ "" then
          fieldSchema.withAttrs (fun a => { a with pattern := tagGet astFieldTag "pattern" })
        else fieldSchema
      let fieldSchema := handleLengthMinMax astFieldTag fieldSchema
      let fieldSchema :=
        if fieldSchema.attrs.typ = TypeArray then
          let fieldSchema := handleItemMinMax astFieldTag fieldSchema
          if tagGet astFieldTag "uniqueItems" ≠ "" then
            fieldSchema.withAttrs (fun a =>
              { a with uniqueItems := (goParseBool? (tagGet astFieldTag "uniqueItems")).getD false })
          else fieldSchema
        else fieldSchema
      let fieldSchema :=
        if fieldSchema.attrs.typ = TypeObject then handlePropertyMinMax astFieldTag fieldSchema
        else fieldSchema
      let fieldSchema := handleEnumTag astFieldTag fieldSchema
      match handleAllOfTag env n st astFieldTag fieldSchema with
      | .error e => .error e
      | .ok (fieldSchema, st1) =>
      match handleOneOfTag env n st1 astFieldTag fieldSchema with
      | .error e => .error e
      | .ok (fieldSchema, st2) =>
      match handleAnyOfTag env n st2 astFieldTag fieldSchema with
      | .error e => .error e
      | .ok (fieldSchema, st3) => .ok ((structSchema, fieldSchema), st3)

/-- `p.handleAllOfTag`. -/
def handleAllOfTag (env : Env) : Nat → PState → List (String × String) →
    SchemaObject → PRes SchemaObject
  | 0, _, _, _ => .error .fuel
  | n + 1, st, astFieldTag, fieldSchema =>
    if tagGet astFieldTag "allOf" ≠ "" then
      unionRefLoop env n st (goSplitChar (goTrimSpace (tagGet astFieldTag "allOf")) ',') fieldSchema
        (fun fs r => fs.withAttrs (fun a => { a with allOf := a.allOf ++ [r] })) false
    else .ok (fieldSchema, st)

/-- `p.handleOneOfTag` (with the discriminator validation). -/
def handleOneOfTag (env : Env) : Nat → PState → List (String × String) →
    SchemaObject → PRes SchemaObject
  | 0, _, _, _ => .error .fuel
  | n + 1, st, astFieldTag, fieldSchema =>
    if tagGet astFieldTag "oneOf" ≠ "" then
      let fieldSchema :=
        if tagGet astFieldTag "discriminator" ≠ "" then
          fieldSchema.withAttrs (fun a =>
            { a with discriminator := some (tagGet astFieldTag "discriminator") })
        else fieldSchema
      unionRefLoop env n st (goSplitChar (goTrimSpace (tagGet astFieldTag "oneOf")) ',') fieldSchema
        (fun fs r => fs.withAttrs (fun a => { a with oneOf := a.oneOf ++ [r] })) true
    else .ok (fieldSchema, st)

/-- `p.handleAnyOfTag`. -/
def handleAnyOfTag (env : Env) : Nat → PState → List (String × String) →
    SchemaObject → PRes SchemaObject
  | 0, _, _, _ => .error .fuel
  | n + 1, st, astFieldTag, fieldSchema =>
    if tagGet astFieldTag "anyOf" ≠ "" then
      unionRefLoop env n st (goSplitChar (goTrimSpace (tagGet astFieldTag "anyOf")) ',') fieldSchema
        (fun fs r => fs.withAttrs (fun a => { a with anyOf := a.anyOf ++ [r] })) false
    else .ok (fieldSchema, st)

/-- The member loop shared by the three union-tag handlers; when
`checkDiscriminator` is set (the oneOf case), a member schema with a
non-nil property map lacking the discriminator property is a hard error. -/
def unionRefLoop (env : Env) : Nat → PState → List String → SchemaObject →
    (SchemaObject → String → SchemaObject) → Bool → PRes SchemaObject
  | 0, _, _, _, _, _ => .error .fuel
  | _ + 1, st, [], fieldSchema, _, _ => .ok (fieldSchema, st)
  | n + 1, st, typeName :: restNames, fieldSchema, addRef, checkDiscriminator =>
    match parseSchemaObject env n st "" "" "" typeName with
    | .error e => .error (wrapErr ("unable to find object with name " ++ typeName) e)
    | .ok (schemaObject, st1) =>
      let discErr : Option String :=
        if checkDiscriminator then
          match fieldSchema.attrs.discriminator, schemaObject.properties with
          | some propertyName, some props =>
            if (lookupStr propertyName props).isNone then
              some ("unable to find discriminator field: " ++ propertyName ++
                ", in schema: " ++ schemaObject.attrs.id)
            else none
          | _, _ => none
        else none
      match discErr with
      | some e => .error (.msg e)
      | none =>
        let fieldSchema := addRef fieldSchema (AddSchemaRefLinkPrefix schemaObject.attrs.id)
        unionRefLoop env n st1 restNames fieldSchema addRef checkDiscriminator

/-- `p.handleArrayType` (a declared `type X []Elt`). -/
def handleArrayType (env : Env) : Nat → PState → SchemaObject → AstType →
    String → String → PRes SchemaObject
  | 0, _, _, _, _, _ => .error .fuel
  | n + 1, st, so, elt, pkgPath, pkgName =>
    let so := (so.withAttrs (fun a => { a with typ := TypeArray })).setItems
      (some SchemaObject.empty)
    let st := memoSet so.attrs.id so st
    let typeAsString := goTrimLeftStar (getTypeAsString elt)
    if !IsBasicGoType typeAsString then
      match registerType env n st pkgPath pkgName typeAsString with
      | .error e => .error (wrapErr "parseSchemaObject parse array items err" e)
      | .ok (schemaItemsSchemaObjectID, st1) =>
        .ok (so.setItems (some (SchemaObject.empty.withAttrs
          (fun a => { a with ref := AddSchemaRefLinkPrefix schemaItemsSchemaObjectID }))), st1)
    else if IsGoTypeOASType typeAsString then
      .ok (so.setItems (some (SchemaObject.empty.withAttrs
        (fun a => { a with typ := goTypesOASTypesGet typeAsString }))), st)
    else
      .ok (so, st)

/-- `p.handleMapType` (a declared `type X map[K]V`). -/
def handleMapType (env : Env) : Nat → PState → String → SchemaObject → AstType →
    String → String → PRes SchemaObject
  | 0, _, _, _, _, _, _ => .error .fuel
  | n + 1, st, fieldName, so, value, pkgPath, pkgName =>
    let fieldName := if fieldName = "" then DefaultFieldName else fieldName
    let so := (so.withAttrs (fun a => { a with typ := TypeObject })).setProperties
      (some (omSet fieldName SchemaObject.empty []))
    let st := memoSet so.attrs.id so st
    let typeAsString := goTrimLeftStar (getTypeAsString value)
    if !IsBasicGoType typeAsString then
      match registerType env n st pkgPath pkgName typeAsString with
      | .error e => .error (wrapErr "parseSchemaObject parse array items err" e)
      | .ok (schemaItemsSchemaObjectID, st1) =>
        .ok (so.setProperties (some (omSet fieldName (SchemaObject.empty.withAttrs
          (fun a => { a with ref := AddSchemaRefLinkPrefix schemaItemsSchemaObjectID })) [])), st1)
    else if IsGoTypeOASType typeAsString then
      .ok (so.setProperties (some (omSet fieldName (SchemaObject.empty.withAttrs
        (fun a => { a with typ := goTypesOASTypesGet typeAsString })) [])), st)
    else
      .ok (so, st)

end

end Goas

namespace Goas

/-! ## Value-pattern extractors (regular expressions as greedy scanners)

Each directive grammar in the source is an unanchored Go regular
expression. The token classes of every grammar are disjoint from the
whitespace that separates them, so leftmost-first matching is implemented
as: try each start position in order; at a start, take each token as its
maximal run and fail to the next start position when a separator or
delimiter is missing (shrinking a greedy token run can never repair such
a failure because the character after a shortened run is another token
character). Quoted captures are delimited scans. -/

def takeRun (cls : Char → Bool) (l : List Char) : List Char × List Char :=
  (l.takeWhile cls, l.dropWhile cls)

/-- Require a nonempty run of `cls`. -/
def run1 (cls : Char → Bool) (l : List Char) : Option (List Char × List Char) :=
  let r := takeRun cls l
  if r.1.isEmpty then none else some r

/-- Require `\s+`. -/
def spaces1 (l : List Char) : Option (List Char) :=
  match run1 goIsSpace l with
  | some (_, rest) => some rest
  | none => none

/-- `"([^"]+)"`: a nonempty double-quoted capture. -/
def quoted1 (l : List Char) : Option (List Char × List Char) :=
  match l with
  | '"' :: rest =>
    match run1 (· ≠ '"') rest with
    | some (cap, '"' :: r) => some (cap, r)
    | _ => none
  | _ => none

def clsDashWord (c : Char) : Bool := c = '-' || goIsWordChar c
def clsGoType (c : Char) : Bool :=
  goIsWordChar c || c = '.' || c = '/' || c = '[' || c = ']'
def clsURL (c : Char) : Bool :=
  goIsWordChar c || c = '?' || c = '&' || c = '#' || c = '/' || c = ':' || c = '.'
def clsRoutePath (c : Char) : Bool :=
  goIsWordChar c || c = '.' || c = '/' || c = '-' || c = '{' || c = '}'
def clsEnumList (c : Char) : Bool :=
  goIsWordChar c || c = ',' || c = '^' || c = '"'

/-- `([-\w]+)[\s]+([\w]+)[\s]+([\w./\[\]]+)[\s]+([\w]+)[\s]+"([^"]+)"`
(the `@Param` grammar), at one start position. -/
def paramMatchAt (l : List Char) : Option (String × String × String × String × String) :=
  match run1 clsDashWord l with
  | none => none
  | some (name, rest) =>
  match spaces1 rest with
  | none => none
  | some rest =>
  match run1 goIsWordChar rest with
  | none => none
  | some (inLoc, rest) =>
  match spaces1 rest with
  | none => none
  | some rest =>
  match run1 clsGoType rest with
  | none => none
  | some (goType, rest) =>
  match spaces1 rest with
  | none => none
  | some rest =>
  match run1 goIsWordChar rest with
  | none => none
  | some (required, rest) =>
  match spaces1 rest with
  | none => none
  | some rest =>
  match quoted1 rest with
  | none => none
  | some (description, _) =>
    some (⟨name⟩, ⟨inLoc⟩, ⟨goType⟩, ⟨required⟩, ⟨description⟩)

/-- Leftmost-first search for the `@Param` grammar. -/
def paramRegexFind : List Char → Option (String × String × String × String × String)
  | [] => none
  | c :: cs =>
    match paramMatchAt (c :: cs) with
    | some r => some r
    | none => paramRegexFind cs

/-- `regexp.MustCompile("\\[\\w*]").ReplaceAllString(goType, "[]")`,
fuel-indexed structurally (each step consumes at least one character, so
`l.length` fuel always suffices). -/
def normalizeBracketsAux : Nat → List Char → List Char
  | 0, l => l
  | _ + 1, [] => []
  | fu + 1, '[' :: rest =>
    (match rest.dropWhile goIsWordChar with
    | ']' :: tail => '[' :: ']' :: normalizeBracketsAux fu tail
    | _ => '[' :: normalizeBracketsAux fu rest)
  | fu + 1, c :: cs => c :: normalizeBracketsAux fu cs

def normalizeBrackets (l : List Char) : List Char :=
  normalizeBracketsAux l.length l

/-- The `[^\[]+\[([^\]]+)` tail of the route grammar. -/
def routeTail (l : List Char) : Option (List Char) :=
  match run1 (· ≠ '[') l with
  | none => none
  | some (_, '[' :: r) =>
    let cap := r.takeWhile (· ≠ ']')
    if cap.isEmpty then none else some cap
  | some (_, _) => none

/-- Backtracking over the length of the path capture `([\w./\-{}]+)`. -/
def routeTryLens (charRun suffix : List Char) : Nat → Option (List Char × List Char)
  | 0 => none
  | i + 1 =>
    match routeTail (charRun.drop (i + 1) ++ suffix) with
    | some cap => some (charRun.take (i + 1), cap)
    | none => routeTryLens charRun suffix i

/-- Leftmost-first search for `([\w./\-{}]+)[^\[]+\[([^\]]+)`
(the `@Router` grammar). -/
def routeFind : List Char → Option (String × String)
  | [] => none
  | c :: cs =>
    (if clsRoutePath c then
      let charRun := (c :: cs).takeWhile clsRoutePath
      let suffix := (c :: cs).drop charRun.length
      match routeTryLens charRun suffix charRun.length with
      | some (g1, cap) => some (⟨g1⟩, ⟨cap⟩)
      | none => routeFind cs
    else routeFind cs)

/-- `([\w?&#/:.]+)\s+"([^"]+)"` (the `@ExternalDoc` grammar), one start. -/
def externalDocMatchAt (l : List Char) : Option (String × String) :=
  match run1 clsURL l with
  | none => none
  | some (url, rest) =>
  match spaces1 rest with
  | none => none
  | some rest =>
  match quoted1 rest with
  | none => none
  | some (description, _) => some (⟨url⟩, ⟨description⟩)

def externalDocFind : List Char → Option (String × String)
  | [] => none
  | c :: cs =>
    match externalDocMatchAt (c :: cs) with
    | some r => some r
    | none => externalDocFind cs

/-- `([-\w]+)\s+"([^"]+)"\s*(?:([\w?&#/:.]+)\s+"([^"]+)"|$)`
(the `@Tag` grammar), one start. -/
def tagMatchAt (l : List Char) : Option (String × String × Option (String × String)) :=
  match run1 clsDashWord l with
  | none => none
  | some (name, rest) =>
  match spaces1 rest with
  | none => none
  | some rest =>
  match quoted1 rest with
  | none => none
  | some (description, rest) =>
    let rest := rest.dropWhile goIsSpace
    if rest.isEmpty then some (⟨name⟩, ⟨description⟩, none)
    else
      match run1 clsURL rest with
      | none => none
      | some (url, rest) =>
      match spaces1 rest with
      | none => none
      | some rest =>
      match quoted1 rest with
      | none => none
      | some (extDescription, _) =>
        some (⟨name⟩, ⟨description⟩, some (⟨url⟩, ⟨extDescription⟩))

def tagFind : List Char → Option (String × String × Option (String × String))
  | [] => none
  | c :: cs =>
    match tagMatchAt (c :: cs) with
    | some r => some r
    | none => tagFind cs

/-- `([-\w]+)[\s]+"([^"]+)"[\s]*(?:"([^"]+)"(?:[\s]+"([\w,^"]+)"|$))`
(the `@ServerVariable` grammar), one start. -/
def serverVariableMatchAt (l : List Char) :
    Option (String × String × String × String) :=
  match run1 clsDashWord l with
  | none => none
  | some (name, rest) =>
  match spaces1 rest with
  | none => none
  | some rest =>
  match quoted1 rest with
  | none => none
  | some (dflt, rest) =>
    let rest := rest.dropWhile goIsSpace
    match quoted1 rest with
    | none => none
    | some (description, rest) =>
      if rest.isEmpty then some (⟨name⟩, ⟨dflt⟩, ⟨description⟩, "")
      else
        match spaces1 rest with
        | none => none
        | some rest =>
          match rest with
          | '"' :: body =>
            let t := body.takeWhile clsEnumList
            let rec tryK : Nat → Option (List Char)
              | 0 => none
              | k + 1 =>
                if body.get? (k + 1) = some '"' then some (body.take (k + 1))
                else tryK k
            match tryK t.length with
            | some cap => some (⟨name⟩, ⟨dflt⟩, ⟨description⟩, ⟨cap⟩)
            | none => none
          | _ => none

def serverVariableFind : List Char → Option (String × String × String × String)
  | [] => none
  | c :: cs =>
    match serverVariableMatchAt (c :: cs) with
    | some r => some r
    | none => serverVariableFind cs

end Goas

namespace Goas

/-! ## Info/document objects and their directive parsers -/

structure ContactObject where
  name : String := ""
  url : String := ""
  email : String := ""
deriving Repr, DecidableEq

structure LicenseObject where
  name : String := ""
  url : String := ""
deriving Repr, DecidableEq

structure ServerVariableObject where
  enum : Option (List String) := none
  default : String := ""
  description : String := ""
deriving Repr, DecidableEq

structure ServerObject where
  url : String := ""
  description : String := ""
  «variables» : Option (List (String × ServerVariableObject)) := none
deriving Repr, DecidableEq

structure ExternalDocumentationObject where
  description : String := ""
  url : String := ""
deriving Repr, DecidableEq

structure TagObject where
  name : String := ""
  description : String := ""
  externalDocs : Option ExternalDocumentationObject := none
deriving Repr, DecidableEq

structure SecuritySchemeOauthFlowObject where
  authorizationURL : String := ""
  tokenURL : String := ""
  scopes : List (String × String) := []
deriving Repr, DecidableEq

structure SecuritySchemeOauthObject where
  implicit : Option SecuritySchemeOauthFlowObject := none
  authorizationCode : Option SecuritySchemeOauthFlowObject := none
  resourceOwnerPassword : Option SecuritySchemeOauthFlowObject := none
  clientCredentials : Option SecuritySchemeOauthFlowObject := none
deriving Repr, DecidableEq

/-- `SecuritySchemeOauthObject.ApplyScopes`. -/
def applyScopesToFlows (flows : SecuritySchemeOauthObject) (scopes : List (String × String)) :
    SecuritySchemeOauthObject :=
  { flows with
    implicit := flows.implicit.map (fun f => { f with scopes := scopes }),
    authorizationCode := flows.authorizationCode.map (fun f => { f with scopes := scopes }),
    resourceOwnerPassword := flows.resourceOwnerPassword.map (fun f => { f with scopes := scopes }),
    clientCredentials := flows.clientCredentials.map (fun f => { f with scopes := scopes }) }

structure SecuritySchemeObject where
  typ : String := ""
  description : String := ""
  scheme : String := ""
  «in» : String := ""
  name : String := ""
  openIDConnectURL : String := ""
  oauthFlows : Option SecuritySchemeOauthObject := none
deriving Repr, DecidableEq

/-- The slice of `p.OpenAPI` that `parseInfo` populates. -/
structure InfoState where
  title : String := ""
  version : String := ""
  description : String := ""
  termsOfService : String := ""
  contact : Option ContactObject := none
  license : Option LicenseObject := none
  servers : List ServerObject := []
  security : List (String × List String) := []
  securitySchemes : List (String × SecuritySchemeObject) := []
  tags : List TagObject := []
  externalDocs : Option ExternalDocumentationObject := none
deriving Repr

/-- Go slice indexing: out of range is a runtime panic. -/
def goIndex (fields : List String) (i : Nat) : Except String String :=
  match fields.get? i with
  | some v => .ok v
  | none => .error "panic: runtime error: index out of range"

/-- `strings.Join(fields[i:], " ")` (an empty suffix is legal). -/
def goJoinFrom (fields : List String) (i : Nat) : String :=
  goJoin " " (fields.drop i)

/-- `p.parseServerVariableComment`. On success, the returned map is the
server's (possibly updated) variable map; the variable is only applied
when the server URL contains the `{name}` placeholder. -/
def parseServerVariableComment (comment : String) (server : ServerObject) :
    Except String (Option (List (String × ServerVariableObject))) :=
  match serverVariableFind comment.data with
  | none =>
    .error ("parseServerVariableComment can not parse servervariable comment " ++ comment)
  | some (name, dflt, description, enumRaw) =>
    if !(goContains server.url ("\x7b" ++ name ++ "\x7d")) then .ok server.«variables»
    else
      let serverVar : ServerVariableObject :=
        { enum := if enumRaw ≠ "" then some (goSplitChar enumRaw ',') else none,
          default := dflt, description := description }
      .ok (some (omSet name serverVar (server.«variables».getD [])))

/-- `p.parseExternalDocComment`. -/
def parseExternalDocComment (comment : String) :
    Except String ExternalDocumentationObject :=
  match externalDocFind comment.data with
  | none =>
    .error ("parseExternalDocComment can not parse externaldoc comment \"" ++ comment ++ "\"")
  | some (extURL, description) =>
    .ok { description := description, url := extURL }

/-- `p.parseTagComment`. -/
def parseTagComment (comment : String) : Except String TagObject :=
  match tagFind comment.data with
  | none => .error ("parseTagComment can not parse tag comment " ++ comment)
  | some (name, description, ext) =>
    .ok { name := name, description := description,
          externalDocs := ext.map (fun e => { description := e.2, url := e.1 }) }

/-- `p.parseSecurityScheme` (void in Go; a too-short directive panics on
slice indexing, modelled as an error). -/
def parseSecurityScheme (value : String)
    (securitySchemes : List (String × SecuritySchemeObject)) :
    Except String (List (String × SecuritySchemeObject)) :=
  let fields := goSplitChar value ' '
  match goIndex fields 0, goIndex fields 1 with
  | .ok key, .ok schemeType =>
    let scheme0 : SecuritySchemeObject :=
      if goContains schemeType "oauth2" then
        match lookupStr key securitySchemes with
        | some oauthScheme => oauthScheme
        | none => { typ := "oauth2", oauthFlows := some {} }
      else { typ := schemeType }
    let schemeE : Except String SecuritySchemeObject :=
      if schemeType = "http" then
        match goIndex fields 2 with
        | .error e => .error e
        | .ok f2 =>
          if f2 = "bearer" then
            .ok { scheme0 with scheme := f2, description := goJoinFrom fields 3 }
          else
            match goIndex fields 3 with
            | .error e => .error e
            | .ok f3 =>
              .ok { scheme0 with scheme := f2, name := f3, description := goJoinFrom fields 4 }
      else if schemeType = "apiKey" then
        match goIndex fields 2, goIndex fields 3 with
        | .ok f2, .ok f3 =>
          .ok { scheme0 with «in» := f2, name := f3, description := goJoinFrom fields 4 }
        | .error e, _ => .error e
        | _, .error e => .error e
      else if schemeType = "openIdConnect" then
        match goIndex fields 2 with
        | .error e => .error e
        | .ok f2 => .ok { scheme0 with openIDConnectURL := f2, description := goJoinFrom fields 3 }
      else if schemeType = "oauth2AuthCode" then
        match goIndex fields 2, goIndex fields 3 with
        | .ok f2, .ok f3 =>
          let flows := scheme0.oauthFlows.getD {}
          let flows := { flows with authorizationCode := some { authorizationURL := f2, tokenURL := f3, scopes := [] } }
          .ok { scheme0 with oauthFlows := some flows }
        | .error e, _ => .error e
        | _, .error e => .error e
      else if schemeType = "oauth2Implicit" then
        match goIndex fields 2 with
        | .error e => .error e
        | .ok f2 =>
          let flows := scheme0.oauthFlows.getD {}
          let flows := { flows with implicit := some { authorizationURL := f2, scopes := [] } }
          .ok { scheme0 with oauthFlows := some flows }
      else if schemeType = "oauth2ResourceOwnerCredentials" then
        match goIndex fields 2 with
        | .error e => .error e
        | .ok f2 =>
          let flows := scheme0.oauthFlows.getD {}
          let flows := { flows with resourceOwnerPassword := some { tokenURL := f2, scopes := [] } }
          .ok { scheme0 with oauthFlows := some flows }
      else if schemeType = "oauth2ClientCredentials" then
        match goIndex fields 2 with
        | .error e => .error e
        | .ok f2 =>
          let flows := scheme0.oauthFlows.getD {}
          let flows := { flows with clientCredentials := some { tokenURL := f2, scopes := [] } }
          .ok { scheme0 with oauthFlows := some flows }
      else .ok scheme0
    match schemeE with
    | .error e => .error e
    | .ok scheme => .ok (omSet key scheme securitySchemes)
  | .error e, _ => .error e
  | _, .error e => .error e

/-- `p.validateInfo`. -/
def validateInfo (info : InfoState) : Except String Unit :=
  if info.title = "" then .error "info.title cannot not be empty"
  else if info.version = "" then .error "info.version cannot not be empty"
  else
    let rec checkServers : Nat → List ServerObject → Except String Unit
      | _, [] => .ok ()
      | i, server :: rest =>
        if server.url = "" then
          .error ("servers[" ++ toString i ++ "].url cannot not be empty")
        else checkServers (i + 1) rest
    checkServers 0 info.servers

/-- `p.applySecurityScopes`. -/
def applySecurityScopes (info : InfoState)
    (oauthScopes : List (String × List (String × String))) : InfoState :=
  { info with securitySchemes := info.securitySchemes.map (fun p =>
      if p.2.typ = "oauth2" then
        match lookupStr p.1 oauthScopes with
        | some scopes =>
          (p.1, { p.2 with oauthFlows := p.2.oauthFlows.map (fun f => applyScopesToFlows f scopes) })
        | none => p
      else p) }

/-- One comment line of `parseInfo`'s loop body (attribute dispatch). The
first component of the result accumulates the temporary oauth-scope list. -/
def parseInfoLine (acc : List (String × List (String × String)) × InfoState)
    (comment : String) :
    Except String (List (String × List (String × String)) × InfoState) :=
  let oauthScopes := acc.1
  let info := acc.2
  let attr := goToLower (firstSplitTok comment)
  if attr = "" || attr.data.headD ' ' ≠ '@' then .ok (oauthScopes, info)
  else
    let value := goTrimSpace (goStrDrop comment attr.length)
    if value = "" then .ok (oauthScopes, info)
    else if attr = "@version" then .ok (oauthScopes, { info with version := value })
    else if attr = "@title" then .ok (oauthScopes, { info with title := value })
    else if attr = "@description" then .ok (oauthScopes, { info with description := value })
    else if attr = "@termsofserviceurl" then
      .ok (oauthScopes, { info with termsOfService := value })
    else if attr = "@contactname" then
      .ok (oauthScopes, { info with contact := some { (info.contact.getD {}) with name := value } })
    else if attr = "@contactemail" then
      .ok (oauthScopes, { info with contact := some { (info.contact.getD {}) with email := value } })
    else if attr = "@contacturl" then
      .ok (oauthScopes, { info with contact := some { (info.contact.getD {}) with url := value } })
    else if attr = "@licensename" then
      .ok (oauthScopes, { info with license := some { (info.license.getD {}) with name := value } })
    else if attr = "@licenseurl" then
      .ok (oauthScopes, { info with license := some { (info.license.getD {}) with url := value } })
    else if attr = "@server" then
      let fields := goSplitChar value ' '
      let f0 := fields.headD ""
      if !goURLIsRequestURI f0 && !goContains f0 "\x7b" then
        .error ("server: \"" ++ f0 ++ "\" is not a valid URL")
      else
        let s : ServerObject :=
          { url := f0, description := goTrimSpace (goStrDrop value f0.length) }
        .ok (oauthScopes, { info with servers := info.servers ++ [s] })
    else if attr = "@security" then
      let fields := goSplitChar value ' '
      let security := (fields.headD "", fields.drop 1)
      .ok (oauthScopes, { info with security := info.security ++ [security] })
    else if attr = "@securityscheme" then
      match parseSecurityScheme value info.securitySchemes with
      | .error e => .error e
      | .ok schemes => .ok (oauthScopes, { info with securitySchemes := schemes })
    else if attr = "@securityscope" then
      match goIndex (goSplitChar value ' ') 0, goIndex (goSplitChar value ' ') 1 with
      | .ok f0, .ok f1 =>
        let inner := (lookupStr f0 oauthScopes).getD []
        let inner := omSet f1 (goJoinFrom (goSplitChar value ' ') 2) inner
        .ok (omSet f0 inner oauthScopes, info)
      | .error e, _ => .error e
      | _, .error e => .error e
    else if attr = "@externaldoc" then
      match parseExternalDocComment (goTrimSpace (goStrDrop comment attr.length)) with
      | .error e => .error e
      | .ok externalDocs => .ok (oauthScopes, { info with externalDocs := some externalDocs })
    else if attr = "@tag" then
      match parseTagComment (goTrimSpace (goStrDrop comment attr.length)) with
      | .error e => .error e
      | .ok tag => .ok (oauthScopes, { info with tags := info.tags ++ [tag] })
    else if attr = "@servervariable" then
      let servers := info.servers.map (fun server =>
        let server := if server.«variables».isNone then { server with «variables» := some [] } else server
        match parseServerVariableComment comment server with
        | .ok vars => { server with «variables» := vars }
        | .error _ => { server with «variables» := none })
      .ok (oauthScopes, { info with servers := servers })
    else .ok (oauthScopes, info)

/-- `p.parseInfo`: the directive loop over all comment lines, then the
oauth scope application and the final document validation. -/
def parseInfo (comments : List String) : Except String InfoState :=
  let init : Except String (List (String × List (String × String)) × InfoState) :=
    .ok ([], {})
  let looped := comments.foldl (fun acc comment =>
    match acc with
    | .error e => .error e
    | .ok acc => parseInfoLine acc comment) init
  match looped with
  | .error e => .error e
  | .ok (oauthScopes, info) =>
    let info := applySecurityScopes info oauthScopes
    match validateInfo info with
    | .error e => .error e
    | .ok () => .ok info

end Goas

namespace Goas

/-! ## Parameter, route and response-status directive parsing -/

/-- Replace a Go error message wholesale (`fmt.Errorf` discarding the
inner error), preserving fuel exhaustion. -/
def replaceMsg (newMsg : String) : PErr → PErr
  | .fuel => .fuel
  | .msg _ => .msg newMsg

/-- `p.handleFileOrForm` (the `file`/`files`/`form` parameter locations);
returns `none` when the location is not one of the three. Accessing the
form content entry of a pre-existing request body that lacks it would be a
nil-pointer panic in Go, modelled as an error. -/
def handleFileOrForm (name inLoc : String) (operation : OperationObject)
    (goType description : String) (required : Bool) :
    Option (Except String OperationObject) :=
  if inLoc = InFile || inLoc = InFiles || inLoc = InForm then
    some (
      let operation :=
        if operation.requestBody.isNone then
          let formSchema := (SchemaObject.empty.withAttrs
            (fun a => { a with typ := TypeObject })).setProperties (some [])
          let rb : RequestBodyObject :=
            { content := [(ContentTypeForm, { schema := formSchema })], required := required }
          { operation with requestBody := some rb }
        else operation
      let rb := operation.requestBody.getD {}
      match lookupStr ContentTypeForm rb.content with
      | none => .error "panic: runtime error: invalid memory address or nil pointer dereference"
      | some mt =>
        let setProp (ps : SchemaObject) : OperationObject :=
          let newSchema := mt.schema.setProperties (some (omSet name ps ((mt.schema.properties).getD [])))
          let mt := { mt with schema := newSchema }
          let rb := { rb with content := omSet ContentTypeForm mt rb.content }
          { operation with requestBody := some rb }
        if inLoc = InFile then
          .ok (setProp (SchemaObject.empty.withAttrs (fun a =>
            { a with typ := "string", format := "binary", description := description })))
        else if inLoc = InFiles then
          .ok (setProp (((SchemaObject.empty.withAttrs (fun a =>
            { a with typ := TypeArray, description := description }))).setItems
              (some (SchemaObject.empty.withAttrs (fun a =>
                { a with typ := "string", format := "binary" })))))
        else if IsGoTypeOASType goType then
          .ok (setProp (SchemaObject.empty.withAttrs (fun a =>
            { a with typ := goTypesOASTypesGet goType,
                     format := goTypesOASFormatsGet goType,
                     description := description })))
        else .ok operation)
  else none

/-- `p.handleParam` (`path`/`query`/`header`/`cookie` locations). The
`Required` flag is forced to `true` for `path` parameters. -/
def handleParam (env : Env) (fuel : Nat) (st : PState)
    (name inLoc : String) (operation : OperationObject)
    (description goType : String) (required : Bool) (pkgPath pkgName : String) :
    Except PErr (OperationObject × PState) :=
  let parameterObject : ParameterObject :=
    { name := name, «in» := inLoc, description := description, required := required }
  let parameterObject :=
    if inLoc = InPath then { parameterObject with required := true } else parameterObject
  if goType = GoTypeTime then
    match parseSchemaObject env fuel st pkgPath pkgName name goType with
    | .error e => .error (replaceMsg ("parseResponseComment cannot parse goType: " ++ goType) e)
    | .ok (schema, st1) =>
      let parameterObject := { parameterObject with schema := some schema }
      .ok ({ operation with parameters := operation.parameters ++ [parameterObject] }, st1)
  else if IsGoTypeOASType goType then
    let paramSchema := SchemaObject.empty.withAttrs (fun a =>
      { a with typ := goTypesOASTypesGet goType, format := goTypesOASFormatsGet goType })
    let parameterObject := { parameterObject with schema := some paramSchema }
    .ok ({ operation with parameters := operation.parameters ++ [parameterObject] }, st)
  else
    .ok (operation, st)

/-- `p.parseParamComment` (the `@Param` directive). -/
def parseParamComment (env : Env) (fuel : Nat) (st : PState)
    (pkgPath pkgName : String) (operation : OperationObject) (comment : String) :
    Except PErr (OperationObject × PState) :=
  match paramRegexFind comment.data with
  | none =>
    .error (.msg ("parseParamComment can not parse param comment \"" ++ comment ++ "\""))
  | some (name, inLoc, goTypeRaw, requiredRaw, description) =>
    let goType : String := ⟨normalizeBrackets goTypeRaw.data⟩
    let required := goToLower requiredRaw = "true" || goToLower requiredRaw = KeywordRequired
    match handleFileOrForm name inLoc operation goType description required with
    | some (.error e) => .error (.msg e)
    | some (.ok operation) => .ok (operation, st)
    | none =>
      if inLoc ≠ InBody then
        match handleParam env fuel st name inLoc operation description goType required pkgPath pkgName with
        | .error e => .error (wrapErr "unable to handle params" e)
        | .ok r => .ok r
      else
        let operation :=
          if operation.requestBody.isNone then
            { operation with requestBody := some { content := [], required := required } }
          else operation
        let rb := operation.requestBody.getD {}
        if goHasPrefix goType "[]" || goHasPrefix goType "map[]" || goType = GoTypeTime then
          match parseSchemaObject env fuel st pkgPath pkgName name goType with
          | .error e =>
            .error (replaceMsg ("parseResponseComment cannot parse goType: " ++ goType) e)
          | .ok (schema, st1) =>
            let rb := { rb with content := omSet ContentTypeJSON { schema := schema } rb.content }
            .ok ({ operation with requestBody := some rb }, st1)
        else
          match registerType env fuel st pkgPath pkgName goTypeRaw with
          | .error e => .error e
          | .ok (typeName, st1) =>
            if IsBasicGoType typeName then
              let strSchema := SchemaObject.empty.withAttrs (fun a => { a with typ := "string" })
              let rb := { rb with content := omSet ContentTypeJSON { schema := strSchema } rb.content }
              .ok ({ operation with requestBody := some rb }, st1)
            else
              let refSchema := SchemaObject.empty.withAttrs (fun a =>
                { a with ref := AddSchemaRefLinkPrefix typeName })
              let rb := { rb with content := omSet ContentTypeJSON { schema := refSchema } rb.content }
              .ok ({ operation with requestBody := some rb }, st1)

/-- Attach an operation to a path item slot for an upper-cased verb; an
unrecognised verb leaves the item unchanged (the `switch` has no default
case). -/
def setPathItemVerb (method : String) (op : OperationObject) (item : PathItemObject) :
    PathItemObject :=
  if method = "GET" then { item with get := some op }
  else if method = "POST" then { item with post := some op }
  else if method = "PATCH" then { item with patch := some op }
  else if method = "PUT" then { item with put := some op }
  else if method = "DELETE" then { item with delete := some op }
  else if method = "OPTIONS" then { item with options := some op }
  else if method = "HEAD" then { item with head := some op }
  else if method = "TRACE" then { item with trace := some op }
  else item

/-- Membership of the eight recognised HTTP verbs. -/
def isKnownVerb (method : String) : Bool :=
  method = "GET" || method = "POST" || method = "PATCH" || method = "PUT" ||
  method = "DELETE" || method = "OPTIONS" || method = "HEAD" || method = "TRACE"

/-- `p.parseRouteComment` (the `@Router` directive): create the path entry
when absent, then attach the operation under the recognised verb. -/
def parseRouteComment (st : PState) (operation : OperationObject) (comment : String) :
    Except String PState :=
  let sourceString := goTrimSpace (goStrDrop comment ("@Router".length))
  match routeFind sourceString.data with
  | none => .error ("can not parse router comment \"" ++ comment ++ "\", skipped")
  | some (path, method) =>
    let paths :=
      match lookupStr path st.paths with
      | some _ => st.paths
      | none => st.paths ++ [(path, {})]
    let item := (lookupStr path paths).getD {}
    let item := setPathItemVerb (goToUpper method) operation item
    .ok { st with paths := omSet path item paths }

/-- The status-token validation of `p.parseResponseComment`
(`@Success`/`@Failure`): a status that is not (case-insensitively) the
literal `default` must parse as a decimal integer. -/
def parseResponseCommentStatusCheck (status : String) : Except String Unit :=
  if !(goEqualFold status "default") then
    match goAtoi? status with
    | none => .error ("parseResponseComment: http status must be int, but got " ++ status)
    | some _ => .ok ()
  else .ok ()

/-- The status-token validation of `p.parseResponseHeader` (`@Header`),
translated as written: the integer check runs exactly when the status IS
the literal `default`. -/
def parseResponseHeaderStatusCheck (status : String) : Except String Unit :=
  if goEqualFold status "default" then
    match goAtoi? status with
    | none => .error ("parseResponseHeader: http status must be int, but got " ++ status)
    | some _ => .ok ()
  else .ok ()

end Goas

namespace Goas

/-! ## Basic lemmas about the embedding -/

@[simp] theorem SchemaObject.attrs_mk (a p i) : (SchemaObject.mk a p i).attrs = a := rfl
@[simp] theorem SchemaObject.properties_mk (a p i) : (SchemaObject.mk a p i).properties = p := rfl
@[simp] theorem SchemaObject.items_mk (a p i) : (SchemaObject.mk a p i).items = i := rfl

@[simp] theorem SchemaObject.attrs_withAttrs (f : SchemaAttrs → SchemaAttrs) (s : SchemaObject) :
    (s.withAttrs f).attrs = f s.attrs := by cases s <;> rfl

@[simp] theorem SchemaObject.properties_withAttrs (f : SchemaAttrs → SchemaAttrs) (s : SchemaObject) :
    (s.withAttrs f).properties = s.properties := by cases s <;> rfl

@[simp] theorem SchemaObject.items_withAttrs (f : SchemaAttrs → SchemaAttrs) (s : SchemaObject) :
    (s.withAttrs f).items = s.items := by cases s <;> rfl

@[simp] theorem SchemaObject.properties_setProperties (p) (s : SchemaObject) :
    (s.setProperties p).properties = p := by cases s <;> rfl

@[simp] theorem SchemaObject.attrs_setProperties (p) (s : SchemaObject) :
    (s.setProperties p).attrs = s.attrs := by cases s <;> rfl

@[simp] theorem SchemaObject.attrs_setItems (i) (s : SchemaObject) :
    (s.setItems i).attrs = s.attrs := by cases s <;> rfl

@[simp] theorem AstField.names_mk (ns t tg) : (AstField.mk ns t tg).names = ns := rfl
@[simp] theorem AstField.typ_mk (ns t tg) : (AstField.mk ns t tg).typ = t := rfl
@[simp] theorem AstField.tag_mk (ns t tg) : (AstField.mk ns t tg).tag = tg := rfl

theorem lookupStr_append_of_some {α : Type} (k : String) (l : List (String × α)) (x : String × α)
    (v : α) (h : lookupStr k l = some v) : lookupStr k (l ++ [x]) = some v := by
  induction l with
  | nil => simp [lookupStr] at h
  | cons hd tl ih =>
    simp only [lookupStr, List.cons_append] at h ⊢
    split at h <;> rename_i hcond
    · rw [if_pos hcond]; exact h
    · rw [if_neg hcond]; exact ih h

theorem lookupStr_insertIfAbsent_of_some {α : Type} (k k' : String) (v' : α) (v : α)
    (l : List (String × α)) (h : lookupStr k l = some v) :
    lookupStr k (insertIfAbsent k' v' l) = some v := by
  unfold insertIfAbsent
  match hl : lookupStr k' l with
  | some _ => exact h
  | none => exact lookupStr_append_of_some k l (k', v') v h

theorem lookupStr_isSome_of_mem {α : Type} (k : String) (l : List (String × α))
    (h : k ∈ l.map Prod.fst) : (lookupStr k l).isSome := by
  induction l with
  | nil => simp at h
  | cons hd tl ih =>
    simp only [List.map_cons, List.mem_cons] at h
    simp only [lookupStr]
    by_cases hc : hd.1 = k
    · rw [if_pos hc]; rfl
    · rw [if_neg hc]
      rcases h with h | h
      · exact absurd h.symm hc
      · exact ih h

theorem mem_of_lookupStr_some {α : Type} (k : String) (l : List (String × α)) (v : α)
    (h : lookupStr k l = some v) : k ∈ l.map Prod.fst := by
  induction l with
  | nil => simp [lookupStr] at h
  | cons hd tl ih =>
    simp only [lookupStr] at h
    split at h <;> rename_i hcond
    · simp [← hcond]
    · simp only [List.map_cons, List.mem_cons]
      exact Or.inr (ih h)

theorem nodup_insertIfAbsent {α : Type} (k : String) (v : α) (l : List (String × α))
    (h : (l.map Prod.fst).Nodup) : ((insertIfAbsent k v l).map Prod.fst).Nodup := by
  unfold insertIfAbsent
  match hl : lookupStr k l with
  | some _ => exact h
  | none =>
    rw [List.map_append]
    simp only [List.map_cons, List.map_nil]
    rw [List.nodup_append]
    refine ⟨h, List.nodup_singleton _, ?_⟩
    intro a ha hb
    simp only [List.mem_singleton] at hb
    subst hb
    have := lookupStr_isSome_of_mem a l ha
    rw [hl] at this
    simp at this

end Goas

namespace Goas

/-! ## Concrete type environments used by the claims -/

/-- `type Fruit struct { Color string; HasSeed bool }` (from the test fixtures). -/
def fruitSpec : TypeSpec :=
  { typ := AstType.structType [
      AstField.mk ["Color"] (AstType.ident "string") (some [("json", "color")]),
      AstField.mk ["HasSeed"] (AstType.ident "bool") (some [("json", "has_seed")])] }

/-- `type T struct { M map[string]Fruit }`. -/
def tmSpec : TypeSpec :=
  { typ := AstType.structType [AstField.mk ["M"] (AstType.mapType (AstType.ident "Fruit")) none] }

/-- Environment with `T` and `Fruit` declared in package `main`. -/
def envTM : Env :=
  { typeSpecs := [("main", [("T", tmSpec), ("Fruit", fruitSpec)])],
    knownPkgs := [Pkg.mk "main" "/m"] }

/-- `type T struct { F []T }` — a struct holding an array of itself. -/
def tSelfSpec : TypeSpec :=
  { typ := AstType.structType [AstField.mk ["F"] (AstType.arrayType (AstType.ident "T")) none] }

def envSelfRef : Env :=
  { typeSpecs := [("main", [("T", tSelfSpec)])],
    knownPkgs := [Pkg.mk "main" "/m"] }

/-- `type Child struct { X string }` and
`type Parent struct { Child; Own string }` (embedded field). -/
def childSpec : TypeSpec :=
  { typ := AstType.structType [AstField.mk ["X"] (AstType.ident "string") none] }

def parentSpec : TypeSpec :=
  { typ := AstType.structType [
      AstField.mk [] (AstType.ident "Child") none,
      AstField.mk ["Own"] (AstType.ident "string") none] }

def envEmbed : Env :=
  { typeSpecs := [("main", [("Parent", parentSpec), ("Child", childSpec)])],
    knownPkgs := [Pkg.mk "main" "/m"] }

/-- `type Arr []string` — a named array type whose schema has no
property map. -/
def arrSpec : TypeSpec :=
  { typ := AstType.arrayType (AstType.ident "string") }

def envArr : Env :=
  { typeSpecs := [("main", [("Arr", arrSpec)])],
    knownPkgs := [Pkg.mk "main" "/m"] }

/-! ## C5 — response/response-header status validation -/

/-- C5: the spec says both `@Success`/`@Failure` and `@Header` accept a
decimal status or the literal `default` and reject anything else. The
response-comment check behaves that way, but the response-header check has
the condition inverted: it rejects the literal `default` with
"http status must be int, but got default" and silently accepts arbitrary
non-integer status tokens such as "abc". -/
theorem C5_responseHeader_status_inverted :
    parseResponseCommentStatusCheck "default" = .ok () ∧
    parseResponseCommentStatusCheck "201" = .ok () ∧
    parseResponseCommentStatusCheck "abc" =
      .error "parseResponseComment: http status must be int, but got abc" ∧
    parseResponseHeaderStatusCheck "default" =
      .error "parseResponseHeader: http status must be int, but got default" ∧
    parseResponseHeaderStatusCheck "abc" = .ok () ∧
    parseResponseHeaderStatusCheck "201" = .ok () := by
  refine ⟨?_, ?_, ?_, ?_, ?_, ?_⟩ <;> rfl

end Goas

namespace Goas

/-! ## C7 — the literal `@Param` round-trip scenario -/

/-- The literal directive value from the spec's round-trip scenario. -/
def c7comment : String := "locale   path   string   true   \"Locale code\""

/-- C7 (counterexample): the claim puts the description inside the
parameter's schema, but the code attaches it to the parameter object and
leaves the schema's description empty (the schema-level assignment is
commented out in `handleParam`). -/
theorem C7_schema_description_empty :
    (match parseParamComment {} 50 {} "/m" "main" {} c7comment with
     | .ok (op, _) =>
       ((op.parameters.headD {}).schema.getD SchemaObject.empty).attrs.description
     | .error _ => "ERROR") ≠ "Locale code" := by
  decide

/-- C7 (amended): parsing
`locale   path   string   true   "Locale code"` produces a parameter named
`locale`, in `path`, required `true`, with the description `Locale code`
on the parameter object itself, and a schema `{type: string,
format: string}` with an empty description. -/
theorem C7_param_roundtrip :
    parseParamComment {} 50 {} "/m" "main" {} c7comment =
      .ok ({ parameters := [{ name := "locale", «in» := "path",
                              description := "Locale code", required := true,
                              schema := some (SchemaObject.mk
                                { typ := "string", format := "string" } none none) }] },
           {}) := by
  rfl

end Goas

namespace Goas

/-! ## C10 — `path` parameters are always required -/

/-- C10: whenever `handleParam` emits a parameter (the directive's Go type
is a convertible basic type or `time.Time`), the emitted parameter's
`Required` flag is `true` for the `path` location regardless of the parsed
token, and equals the parsed token for every other location. -/
theorem C10_path_forces_required (env : Env) (fuel : Nat) (st : PState)
    (name inLoc description goType : String) (required : Bool)
    (pkgPath pkgName : String) (operation : OperationObject)
    (op' : OperationObject) (st' : PState)
    (hgo : IsGoTypeOASType goType = true ∨ goType = GoTypeTime)
    (hok : handleParam env fuel st name inLoc operation description goType required pkgPath pkgName
      = .ok (op', st')) :
    ∃ p : ParameterObject,
      op'.parameters = operation.parameters ++ [p] ∧
      p.required = (if inLoc = InPath then true else required) ∧
      p.name = name ∧ p.«in» = inLoc ∧ p.description = description := by
  unfold handleParam at hok
  by_cases htime : goType = GoTypeTime
  · rw [if_pos htime] at hok
    cases hparse : parseSchemaObject env fuel st pkgPath pkgName name goType with
    | error e => rw [hparse] at hok; exact absurd hok (by simp)
    | ok r =>
      rw [hparse] at hok
      obtain ⟨schema, st1⟩ := r
      simp only [Except.ok.injEq, Prod.mk.injEq] at hok
      obtain ⟨hop, -⟩ := hok
      refine ⟨_, by rw [← hop], ?_, ?_, ?_, ?_⟩ <;>
        by_cases hpath : inLoc = InPath <;> simp [hpath]
  · rw [if_neg htime] at hok
    have hoas : IsGoTypeOASType goType = true := by
      rcases hgo with h | h
      · exact h
      · exact absurd h htime
    rw [hoas] at hok
    simp only [if_true] at hok
    simp only [Except.ok.injEq, Prod.mk.injEq] at hok
    obtain ⟨hop, -⟩ := hok
    refine ⟨_, by rw [← hop], ?_, ?_, ?_, ?_⟩ <;>
      by_cases hpath : inLoc = InPath <;> simp [hpath]

/-- The concrete outcome used by the C10 witness. -/
def c10res : Except PErr (OperationObject × PState) :=
  handleParam {} 5 {} "locale" "path" {} "Locale code" "string" false "/m" "main"

def c10op : OperationObject :=
  match c10res with
  | .ok (op, _) => op
  | .error _ => {}

def c10st : PState :=
  match c10res with
  | .ok (_, st) => st
  | .error _ => {}

/-- C10 witness: a `path` parameter whose required token parsed to `false`
is emitted with `Required = true`. -/
theorem C10_path_forces_required_witness :
    ∃ p : ParameterObject,
      (c10op).parameters = ({} : OperationObject).parameters ++ [p] ∧
      p.required = (if "path" = InPath then true else false) ∧
      p.name = "locale" ∧ p.«in» = "path" ∧ p.description = "Locale code" :=
  C10_path_forces_required {} 5 {} "locale" "path" "Locale code" "string" false "/m" "main" {}
    c10op c10st (Or.inl (by decide)) (by rfl)

end Goas

namespace Goas

/-! ## C3 — embedded struct fields -/

/-- C3 (counterexample): `Parent` embeds `Child` (whose schema is an object
with property `X`) and declares its own field `Own`, yet the resolved
`Parent` schema's property map is exactly `[Own]`: the embedded type's
properties are not merged. -/
theorem C3_embedded_not_merged :
    (match parseSchemaObject envEmbed 50 {} "/m" "main" "" "Parent" with
     | .ok (s, _) => (s.properties.getD []).map Prod.fst
     | .error _ => ["ERROR"]) = ["Own"] ∧
    (match parseSchemaObject envEmbed 50 {} "/m" "main" "" "Parent" with
     | .ok (s, _) => lookupStr "X" (s.properties.getD [])
     | .error _ => none) = none := by
  exact ⟨rfl, rfl⟩

/-- C3 (amended): a struct field with zero names (an embedded type) is
skipped entirely by the field loop — it is not resolved, contributes no
properties, and leaves the state and the accumulated schema unchanged. -/
theorem C3_embedded_skipped (env : Env) (n : Nat) (st : PState)
    (pkgPath pkgName : String) (structSchema : SchemaObject)
    (f : AstField) (fs : List AstField) (h : f.names = []) :
    structFieldsLoop env (n + 1) st pkgPath pkgName structSchema (f :: fs) =
    structFieldsLoop env n st pkgPath pkgName structSchema fs := by
  cases f with
  | mk ns t tg =>
    simp only [AstField.names_mk] at h
    subst h
    rfl

/-- C3 witness: the skip equation at a concrete embedded field. -/
theorem C3_embedded_skipped_witness :
    structFieldsLoop envEmbed 3 {} "/m" "main" SchemaObject.empty
      [AstField.mk [] (AstType.ident "Child") none] =
    structFieldsLoop envEmbed 2 {} "/m" "main" SchemaObject.empty [] :=
  C3_embedded_skipped envEmbed 2 {} "/m" "main" SchemaObject.empty
    (AstField.mk [] (AstType.ident "Child") none) [] rfl

end Goas


namespace Goas

def getPathItemVerb (method : String) (item : PathItemObject) : Option OperationObject :=
  if method = "GET" then item.get
  else if method = "POST" then item.post
  else if method = "PATCH" then item.patch
  else if method = "PUT" then item.put
  else if method = "DELETE" then item.delete
  else if method = "OPTIONS" then item.options
  else if method = "HEAD" then item.head
  else if method = "TRACE" then item.trace
  else none

theorem setPathItemVerb_unknown (m : String) (op : OperationObject) (item : PathItemObject)
    (h : isKnownVerb m = false) : setPathItemVerb m op item = item := by
  simp only [isKnownVerb, Bool.or_eq_false_iff, decide_eq_false_iff_not] at h
  unfold setPathItemVerb
  rw [if_neg, if_neg, if_neg, if_neg, if_neg, if_neg, if_neg, if_neg] <;> tauto

theorem getPathItemVerb_set (m : String) (op : OperationObject) (item : PathItemObject)
    (h : isKnownVerb m = true) : getPathItemVerb m (setPathItemVerb m op item) = some op := by
  simp only [isKnownVerb, Bool.or_eq_true, decide_eq_true_eq] at h
  rcases h with ((((((h | h) | h) | h) | h) | h) | h) | h <;> subst h <;> rfl

theorem takeWhile_append_stop (p : Char → Bool) (l1 l2 : List Char) (c : Char)
    (h1 : l1.all p = true) (hc : p c = false) :
    (l1 ++ c :: l2).takeWhile p = l1 ∧ (l1 ++ c :: l2).dropWhile p = c :: l2 := by
  induction l1 with
  | nil => simp [List.takeWhile, List.dropWhile, hc]
  | cons hd tl ih =>
    simp only [List.all_cons, Bool.and_eq_true] at h1
    obtain ⟨hhd, htl⟩ := h1
    obtain ⟨iht, ihd⟩ := ih htl
    refine ⟨?_, ?_⟩
    · rw [List.cons_append, List.takeWhile_cons, hhd]
      simp [iht]
    · rw [List.cons_append, List.dropWhile_cons, hhd]
      simp [ihd]

theorem routeTail_spec (ml : List Char) (hm : ml ≠ []) (hmc : ml.all (· ≠ ']') = true) :
    routeTail (' ' :: '[' :: (ml ++ [']'])) = some ml := by
  have hcap := takeWhile_append_stop (fun c => c ≠ ']') ml [] ']' hmc (by decide)
  have hrun : run1 (· ≠ '[') (' ' :: '[' :: (ml ++ [']'])) =
      some ([' '], '[' :: (ml ++ [']'])) := rfl
  unfold routeTail
  rw [hrun]
  simp only []
  rw [hcap.1]
  simp [List.isEmpty_eq_true, hm]


theorem lookupStr_omSet_self {α : Type} (k : String) (v : α) (l : List (String × α)) :
    lookupStr k (omSet k v l) = some v := by
  induction l with
  | nil => simp [omSet, lookupStr]
  | cons hd tl ih =>
    simp only [omSet]
    by_cases hc : hd.1 = k
    · rw [if_pos hc]; simp [lookupStr, hc]
    · rw [if_neg hc]; simp [lookupStr, hc, ih]

theorem lookupStr_append_self {α : Type} (k : String) (v : α) (l : List (String × α))
    (h : lookupStr k l = none) : lookupStr k (l ++ [(k, v)]) = some v := by
  induction l with
  | nil => simp [lookupStr]
  | cons hd tl ih =>
    simp only [lookupStr] at h
    split at h <;> rename_i hc
    · exact absurd h (by simp)
    · simp only [List.cons_append, lookupStr]
      rw [if_neg hc]
      exact ih h

theorem routeFind_spec (pl ml : List Char) (hp : pl ≠ []) (hpc : pl.all clsRoutePath = true)
    (hm : ml ≠ []) (hmc : ml.all (· ≠ ']') = true) :
    routeFind (pl ++ ' ' :: '[' :: (ml ++ [']'])) = some (⟨pl⟩, ⟨ml⟩) := by
  obtain ⟨c, cs, rfl⟩ : ∃ c cs, pl = c :: cs := by
    cases pl with
    | nil => exact absurd rfl hp
    | cons c cs => exact ⟨c, cs, rfl⟩
  have hc : clsRoutePath c = true := by
    simp only [List.all_cons, Bool.and_eq_true] at hpc
    exact hpc.1
  have hsplit := takeWhile_append_stop clsRoutePath (c :: cs) ('[' :: (ml ++ [']'])) ' '
    hpc (by decide)
  have htake := hsplit.1
  rw [List.cons_append] at htake
  rw [List.cons_append]
  unfold routeFind
  rw [if_pos hc, htake]
  dsimp only
  have hdrop2 : List.drop (c :: cs).length (c :: (cs ++ ' ' :: '[' :: (ml ++ [']']))) =
      ' ' :: '[' :: (ml ++ [']']) := by
    have := List.drop_left (c :: cs) (' ' :: '[' :: (ml ++ [']']))
    rwa [List.cons_append] at this
  rw [hdrop2, List.length_cons]
  unfold routeTryLens
  have hdl : (c :: cs).drop (cs.length + 1) = [] := by
    rw [← List.length_cons c cs]
    exact List.drop_length _
  rw [hdl]
  rw [List.nil_append, routeTail_spec ml hm hmc]
  dsimp only
  have htk : (c :: cs).take (cs.length + 1) = c :: cs := by
    rw [← List.length_cons c cs]
    exact List.take_length _
  rw [htk]


theorem comment_trim_spec (pl ml : List Char) (hpns : pl.all (fun c => !goIsSpace c) = true)
    (hp : pl ≠ []) :
    goTrimSpace (goStrDrop ((("@Router " ++ ⟨pl⟩ ++ " [" ++ (⟨ml⟩ : String) ++ "]") : String)) ("@Router".length)) =
      ⟨pl ++ ' ' :: '[' :: (ml ++ [']'])⟩ := by
  obtain ⟨c, cs, rfl⟩ : ∃ c cs, pl = c :: cs := by
    cases pl with
    | nil => exact absurd rfl hp
    | cons c cs => exact ⟨c, cs, rfl⟩
  have hcns : goIsSpace c = false := by
    simp only [List.all_cons, Bool.and_eq_true] at hpns
    simpa using hpns.1
  have hdata : (("@Router " ++ ⟨c :: cs⟩ ++ " [" ++ (⟨ml⟩ : String) ++ "]") : String).data =
      '@' :: 'R' :: 'o' :: 'u' :: 't' :: 'e' :: 'r' :: ' ' :: c :: (cs ++ ' ' :: '[' :: (ml ++ [']'])) := by
    simp only [String.data_append]
    simp [List.append_assoc]
  have hdrop : goStrDrop (("@Router " ++ ⟨c :: cs⟩ ++ " [" ++ (⟨ml⟩ : String) ++ "]") : String) ("@Router".length) =
      ⟨' ' :: c :: (cs ++ ' ' :: '[' :: (ml ++ [']']))⟩ := by
    unfold goStrDrop
    rw [hdata]
    rfl
  rw [hdrop]
  
  unfold goTrimSpace
  have hdd : ((⟨' ' :: c :: (cs ++ ' ' :: '[' :: (ml ++ [']']))⟩ : String)).data
      = ' ' :: c :: (cs ++ ' ' :: '[' :: (ml ++ [']'])) := rfl
  rw [hdd]
  rw [List.dropWhile_cons]
  simp only [show goIsSpace ' ' = true from rfl, if_true]
  rw [List.dropWhile_cons, hcns]
  simp only [Bool.false_eq_true, if_false]
  have hrev : (c :: (cs ++ ' ' :: '[' :: (ml ++ [']']))).reverse =
      ']' :: ((ml.reverse ++ ('[' :: ' ' :: cs.reverse)) ++ [c]) := by
    simp
  rw [hrev, List.dropWhile_cons]
  simp only [show goIsSpace ']' = false from rfl, Bool.false_eq_true, if_false]
  rw [← hrev, List.reverse_reverse, List.cons_append]


/-- C8: for every route directive `path [method]` (path over the route
character class, method nonempty without `]`), parsing
`@Router path [method]` succeeds; the paths map afterwards holds an entry
for `path` whose item is the old item (or a fresh one if absent) with the
operation attached under the verb when it is one of the eight recognised
HTTP verbs, and unchanged — silently ignored, with the entry still
created — when the verb is unknown. -/
theorem C8_route_dispatch (st : PState) (op : OperationObject) (path method : String)
    (hp : path.data ≠ []) (hpc : path.data.all clsRoutePath = true)
    (hpns : path.data.all (fun c => !goIsSpace c) = true)
    (hm : method.data ≠ []) (hmc : method.data.all (· ≠ ']') = true) :
    ∃ st', parseRouteComment st op ("@Router " ++ path ++ " [" ++ method ++ "]") = .ok st' ∧
      lookupStr path st'.paths =
        some (setPathItemVerb (goToUpper method) op ((lookupStr path st.paths).getD {})) ∧
      (isKnownVerb (goToUpper method) = true →
        getPathItemVerb (goToUpper method) ((lookupStr path st'.paths).getD {}) = some op) ∧
      (isKnownVerb (goToUpper method) = false →
        lookupStr path st'.paths = some ((lookupStr path st.paths).getD {})) := by
  obtain ⟨pl⟩ := path
  obtain ⟨ml⟩ := method
  have hp' : pl ≠ [] := hp
  have hm' : ml ≠ [] := hm
  unfold parseRouteComment
  rw [comment_trim_spec pl ml hpns hp']
  dsimp only
  rw [routeFind_spec pl ml hp' hpc hm' hmc]
  set M := goToUpper ⟨ml⟩ with hM
  cases hlk : lookupStr ⟨pl⟩ st.paths with
  | some p0 =>
    refine ⟨_, rfl, ?_, ?_, ?_⟩
    · simp only [hlk]
      rw [lookupStr_omSet_self]
    · intro hknown
      simp only [hlk]
      rw [lookupStr_omSet_self]
      simp only [Option.getD_some]
      exact getPathItemVerb_set M op p0 hknown
    · intro hunknown
      simp only [hlk]
      rw [lookupStr_omSet_self]
      rw [setPathItemVerb_unknown M op _ hunknown]
  | none =>
    have happ : lookupStr ⟨pl⟩
        (st.paths ++ [((⟨pl⟩ : String), (⟨none, none, none, none, none, none, none, none⟩ : PathItemObject))]) =
        some ⟨none, none, none, none, none, none, none, none⟩ :=
      lookupStr_append_self _ _ _ hlk
    refine ⟨_, rfl, ?_, ?_, ?_⟩
    · simp only [hlk]
      rw [happ]
      rw [lookupStr_omSet_self]
      simp only [Option.getD_some, Option.getD_none]
    · intro hknown
      simp only [hlk]
      rw [happ, lookupStr_omSet_self]
      simp only [Option.getD_some]
      exact getPathItemVerb_set M op _ hknown
    · intro hunknown
      simp only [hlk]
      rw [happ, lookupStr_omSet_self]
      rw [setPathItemVerb_unknown M op _ hunknown]
      simp only [Option.getD_some, Option.getD_none]


/-- C8 witness: the spec's literal scenario `/{locale}/{id} [patch]`. -/
theorem C8_route_dispatch_witness :
    ∃ st', parseRouteComment {} {} ("@Router " ++ "/{locale}/{id}" ++ " [" ++ "patch" ++ "]") = .ok st' ∧
      lookupStr "/{locale}/{id}" st'.paths =
        some (setPathItemVerb (goToUpper "patch") {} ((lookupStr "/{locale}/{id}" ({} : PState).paths).getD {})) ∧
      (isKnownVerb (goToUpper "patch") = true →
        getPathItemVerb (goToUpper "patch") ((lookupStr "/{locale}/{id}" st'.paths).getD {}) = some {}) ∧
      (isKnownVerb (goToUpper "patch") = false →
        lookupStr "/{locale}/{id}" st'.paths = some ((lookupStr "/{locale}/{id}" ({} : PState).paths).getD {})) :=
  C8_route_dispatch {} {} "/{locale}/{id}" "patch" (by decide) (by decide) (by decide)
    (by decide) (by decide)

end Goas

namespace Goas

/-- C6: a named struct field whose tag carries an opt-out marker
(`goas:"-"`, or `json:"…-…"` when the goas tag has no `-`) contributes
nothing to the struct schema: after the field's type resolution the loop
short-circuits before any tag-derived constraint is applied, so the
property map and the required list continue unchanged (only the
disabled-names set may grow), and processing resumes with the remaining
fields. A failed type resolution aborts the whole loop. -/
theorem C6_optout_shortcircuit (env : Env) (n : Nat) (st : PState)
    (pkgPath pkgName : String) (structSchema : SchemaObject)
    (f : AstField) (fs : List AstField) (tag : List (String × String))
    (htag : f.tag = some tag) (hnames : f.names ≠ [])
    (hopt : (goSplitChar (if tagGet tag "goas" ≠ "" then tagGet tag "goas" else "") ',').contains "-" = true
      ∨ ((goSplitChar (if tagGet tag "goas" ≠ "" then tagGet tag "goas" else "") ',').contains "-" = false ∧
         (goSplitChar (if tagGet tag "json" ≠ "" then tagGet tag "json"
            else (if tagGet tag "goas" ≠ "" then tagGet tag "goas" else "")) ',').contains "-" = true)) :
    (∃ e, structFieldsLoop env (n + 1) st pkgPath pkgName structSchema (f :: fs) = .error e) ∨
    (∃ st' sch', structFieldsLoop env (n + 1) st pkgPath pkgName structSchema (f :: fs) =
        structFieldsLoop env n st' pkgPath pkgName sch' fs ∧
      sch'.properties = structSchema.properties ∧
      sch'.attrs.required = structSchema.attrs.required) := by
  obtain ⟨ns, ftyp, ftag⟩ := f
  simp only [AstField.tag_mk] at htag
  subst htag
  simp only [AstField.names_mk] at hnames
  obtain ⟨nm, ns', rfl⟩ : ∃ a l, ns = a :: l := by
    cases ns with
    | nil => exact absurd rfl hnames
    | cons a l => exact ⟨a, l, rfl⟩
  rw [structFieldsLoop]
  simp only [AstField.names_mk, AstField.typ_mk, AstField.tag_mk, List.isEmpty_cons,
    List.headD_cons]
  rcases hR : resolveFieldType env n st pkgPath pkgName ftyp with e | ⟨fieldSchema, st1⟩
  · exact Or.inl ⟨e, by simp⟩
  · rw [if_neg (by simp : ¬(false = true))]
    dsimp only
    by_cases hdis : structSchema.attrs.disabledFieldNames.contains nm = true
    · rw [if_pos hdis]
      exact Or.inr ⟨st1, structSchema, rfl, rfl, rfl⟩
    · rw [if_neg hdis]
      rcases hopt with hgoas | ⟨hgoas, hjson⟩
      · rw [if_pos hgoas]
        refine Or.inr ⟨_, _, rfl, ?_, ?_⟩ <;> simp
      · rw [if_neg (by simpa using hgoas), if_pos hjson]
        refine Or.inr ⟨_, _, rfl, ?_, ?_⟩ <;> simp


/-- C6 witness: a field `Secret string` tagged
`goas:"-" required:"true" example:"5"` leaves properties and required
untouched. -/
theorem C6_optout_shortcircuit_witness :
    (∃ e, structFieldsLoop {} 4 {} "/m" "main" SchemaObject.empty
        [AstField.mk ["Secret"] (AstType.ident "string")
          (some [("goas", "-"), ("required", "true"), ("example", "5")])] = .error e) ∨
    (∃ st' sch', structFieldsLoop {} 4 {} "/m" "main" SchemaObject.empty
        [AstField.mk ["Secret"] (AstType.ident "string")
          (some [("goas", "-"), ("required", "true"), ("example", "5")])] =
        structFieldsLoop {} 3 st' "/m" "main" sch' [] ∧
      sch'.properties = SchemaObject.empty.properties ∧
      sch'.attrs.required = SchemaObject.empty.attrs.required) :=
  C6_optout_shortcircuit {} 3 {} "/m" "main" SchemaObject.empty
    (AstField.mk ["Secret"] (AstType.ident "string")
      (some [("goas", "-"), ("required", "true"), ("example", "5")]))
    [] [("goas", "-"), ("required", "true"), ("example", "5")]
    rfl (by decide) (Or.inl (by decide))

/-- C9 counterexample: a malformed `@ServerVariable` line does NOT make `parseInfo`
fail; the error of `parseServerVariableComment` is dropped (`server.Variables, _ = ...`)
and the server's `Variables` field is overwritten with `nil`. -/
theorem C9_server_variable_error_swallowed :
    ∃ info, parseInfo ["@Title Test Run", "@Version 1.0.0",
      "@Server http://dev.site.com Development Site", "@ServerVariable garbage"] = .ok info ∧
      info.servers.map (fun s => s.«variables») = [none] := by
  refine ⟨_, rfl, ?_⟩
  rfl


/-- C9 (amended): when a directive value fails its extractor's pattern, the `@Tag` and
`@ExternalDoc` errors are propagated by `parseInfoLine`, but the `@ServerVariable`
error is silently discarded: the line parses to `.ok` and every server's
`variables` field is reset to `none`. -/
theorem C9_error_propagation
    (acc : List (String × List (String × String)) × InfoState) (v : String)
    (hv : v.data ≠ [])
    (hfront : v.data.dropWhile goIsSpace = v.data)
    (hback : v.data.reverse.dropWhile goIsSpace = v.data.reverse) :
    (tagFind v.data = none →
      parseInfoLine acc ("@Tag " ++ v) =
        .error ("parseTagComment can not parse tag comment " ++ v)) ∧
    (externalDocFind v.data = none →
      parseInfoLine acc ("@ExternalDoc " ++ v) =
        .error ("parseExternalDocComment can not parse externaldoc comment \"" ++ v ++ "\"")) ∧
    (serverVariableFind ("@ServerVariable " ++ v).data = none →
      parseInfoLine acc ("@ServerVariable " ++ v) =
        .ok (acc.1, { acc.2 with servers := acc.2.servers.map (fun s => { s with «variables» := none }) })) := by
  obtain ⟨vl⟩ := v
  have hv' : vl ≠ [] := hv
  have hvne : ((⟨vl⟩ : String)) ≠ "" := by
    intro h
    exact hv' (congrArg String.data h)
  refine ⟨?_, ?_, ?_⟩
  · intro htf
    have hvalue : goTrimSpace (goStrDrop ("@Tag " ++ (⟨vl⟩ : String)) (("@tag" : String).length)) = ⟨vl⟩ := by
      unfold goStrDrop goTrimSpace
      rw [show (("@Tag " ++ (⟨vl⟩ : String)) : String).data = '@' :: 'T' :: 'a' :: 'g' :: ' ' :: vl from rfl]
      rw [show List.drop (("@tag" : String).length) ('@' :: 'T' :: 'a' :: 'g' :: ' ' :: vl) = ' ' :: vl from rfl]
      rw [show ((⟨' ' :: vl⟩ : String)).data = ' ' :: vl from rfl]
      rw [List.dropWhile_cons]
      simp only [show goIsSpace ' ' = true from rfl, if_true]
      rw [hfront, hback, List.reverse_reverse]
    unfold parseInfoLine
    rw [show goToLower (firstSplitTok ("@Tag " ++ (⟨vl⟩ : String))) = "@tag" from rfl]
    rw [if_neg (by decide)]
    rw [hvalue]
    rw [if_neg hvne]
    rw [if_neg (by decide)]
    rw [if_neg (by decide)]
    rw [if_neg (by decide)]
    rw [if_neg (by decide)]
    rw [if_neg (by decide)]
    rw [if_neg (by decide)]
    rw [if_neg (by decide)]
    rw [if_neg (by decide)]
    rw [if_neg (by decide)]
    rw [if_neg (by decide)]
    rw [if_neg (by decide)]
    rw [if_neg (by decide)]
    rw [if_neg (by decide)]
    rw [if_neg (by decide)]
    rw [if_pos (by decide)]
    unfold parseTagComment
    rw [htf]
  · intro hef
    have hvalue : goTrimSpace (goStrDrop ("@ExternalDoc " ++ (⟨vl⟩ : String)) (("@externaldoc" : String).length)) = ⟨vl⟩ := by
      unfold goStrDrop goTrimSpace
      rw [show (("@ExternalDoc " ++ (⟨vl⟩ : String)) : String).data =
        '@' :: 'E' :: 'x' :: 't' :: 'e' :: 'r' :: 'n' :: 'a' :: 'l' :: 'D' :: 'o' :: 'c' :: ' ' :: vl from rfl]
      rw [show List.drop (("@externaldoc" : String).length)
        ('@' :: 'E' :: 'x' :: 't' :: 'e' :: 'r' :: 'n' :: 'a' :: 'l' :: 'D' :: 'o' :: 'c' :: ' ' :: vl) = ' ' :: vl from rfl]
      rw [show ((⟨' ' :: vl⟩ : String)).data = ' ' :: vl from rfl]
      rw [List.dropWhile_cons]
      simp only [show goIsSpace ' ' = true from rfl, if_true]
      rw [hfront, hback, List.reverse_reverse]
    unfold parseInfoLine
    rw [show goToLower (firstSplitTok ("@ExternalDoc " ++ (⟨vl⟩ : String))) = "@externaldoc" from rfl]
    rw [if_neg (by decide)]
    rw [hvalue]
    rw [if_neg hvne]
    rw [if_neg (by decide)]
    rw [if_neg (by decide)]
    rw [if_neg (by decide)]
    rw [if_neg (by decide)]
    rw [if_neg (by decide)]
    rw [if_neg (by decide)]
    rw [if_neg (by decide)]
    rw [if_neg (by decide)]
    rw [if_neg (by decide)]
    rw [if_neg (by decide)]
    rw [if_neg (by decide)]
    rw [if_neg (by decide)]
    rw [if_neg (by decide)]
    rw [if_pos (by decide)]
    unfold parseExternalDocComment
    rw [hef]
  · intro hsv
    have hvalue : goTrimSpace (goStrDrop ("@ServerVariable " ++ (⟨vl⟩ : String)) (("@servervariable" : String).length)) = ⟨vl⟩ := by
      unfold goStrDrop goTrimSpace
      rw [show (("@ServerVariable " ++ (⟨vl⟩ : String)) : String).data =
        '@' :: 'S' :: 'e' :: 'r' :: 'v' :: 'e' :: 'r' :: 'V' :: 'a' :: 'r' :: 'i' :: 'a' :: 'b' :: 'l' :: 'e' :: ' ' :: vl from rfl]
      rw [show List.drop (("@servervariable" : String).length)
        ('@' :: 'S' :: 'e' :: 'r' :: 'v' :: 'e' :: 'r' :: 'V' :: 'a' :: 'r' :: 'i' :: 'a' :: 'b' :: 'l' :: 'e' :: ' ' :: vl) = ' ' :: vl from rfl]
      rw [show ((⟨' ' :: vl⟩ : String)).data = ' ' :: vl from rfl]
      rw [List.dropWhile_cons]
      simp only [show goIsSpace ' ' = true from rfl, if_true]
      rw [hfront, hback, List.reverse_reverse]
    unfold parseInfoLine
    rw [show goToLower (firstSplitTok ("@ServerVariable " ++ (⟨vl⟩ : String))) = "@servervariable" from rfl]
    rw [if_neg (by decide)]
    rw [hvalue]
    rw [if_neg hvne]
    rw [if_neg (by decide)]
    rw [if_neg (by decide)]
    rw [if_neg (by decide)]
    rw [if_neg (by decide)]
    rw [if_neg (by decide)]
    rw [if_neg (by decide)]
    rw [if_neg (by decide)]
    rw [if_neg (by decide)]
    rw [if_neg (by decide)]
    rw [if_neg (by decide)]
    rw [if_neg (by decide)]
    rw [if_neg (by decide)]
    rw [if_neg (by decide)]
    rw [if_neg (by decide)]
    rw [if_neg (by decide)]
    rw [if_pos (by decide)]
    dsimp only
    refine congrArg _ (congrArg _ ?_)
    congr 1
    apply List.map_congr_left
    intro s _
    unfold parseServerVariableComment
    rw [hsv]
    obtain ⟨surl, sdesc, svars⟩ := s
    cases svars <;> rfl

/-- Concrete instantiation of the C9 amended theorem on the value "garbage" and a
state holding one server. -/
theorem C9_error_propagation_witness :
    parseInfoLine ([], { servers := [⟨"http://x", "", some []⟩] }) "@ServerVariable garbage" =
      .ok (([] : List (String × List (String × String))),
        ({ servers := [⟨"http://x", "", none⟩] } : InfoState)) :=
  (C9_error_propagation ([], { servers := [⟨"http://x", "", some []⟩] }) "garbage"
    (by decide) (by decide) (by decide)).2.2 (by rfl)

/-- C4 counterexample: the discriminator check is guarded by
`schemaObject.Properties != nil`; a `oneOf` member whose schema has no
property map (here `type Arr []string`) is accepted without any error even
though it cannot contain the discriminator property. -/
theorem C4_nil_properties_check_skipped :
    ∃ fs st, handleOneOfTag envArr 20 {} [("oneOf", "Arr"), ("discriminator", "kind")]
        SchemaObject.empty = .ok (fs, st) ∧
      fs.attrs.discriminator = some "kind" ∧
      fs.attrs.oneOf = [AddSchemaRefLinkPrefix "Arr"] ∧
      ∃ obj, lookupStr "Arr" st.knownIDSchema = some obj ∧ obj.properties = none := by
  exact ⟨_, _, rfl, rfl, rfl, _, rfl, rfl⟩

/-- C4 (amended): `handleOneOfTag` attaches the discriminator property name
to the field schema and runs the member loop with the check enabled; at
each member, a schema with a property map lacking the discriminator
property is a hard error naming the property and the member's ID, a schema
whose property map contains it continues, and a schema with no property
map at all skips the check and continues (contrary to the claim). -/
theorem C4_discriminator_validation
    (env : Env) (n : Nat) (st : PState) (tag : List (String × String))
    (fieldSchema : SchemaObject) (propertyName : String)
    (hone : tagGet tag "oneOf" ≠ "")
    (hdisc : tagGet tag "discriminator" = propertyName) (hpn : propertyName ≠ "")
    (typeName : String) (rest : List String) (obj : SchemaObject) (st1 : PState)
    (addRef : SchemaObject → String → SchemaObject)
    (fs : SchemaObject) (hfs : fs.attrs.discriminator = some propertyName)
    (hres : parseSchemaObject env n st "" "" "" typeName = .ok (obj, st1)) :
    handleOneOfTag env (n+1) st tag fieldSchema =
      unionRefLoop env n st (goSplitChar (goTrimSpace (tagGet tag "oneOf")) ',')
        (fieldSchema.withAttrs (fun a => { a with discriminator := some propertyName }))
        (fun fs r => fs.withAttrs (fun a => { a with oneOf := a.oneOf ++ [r] })) true ∧
    (∀ props, obj.properties = some props → lookupStr propertyName props = none →
      unionRefLoop env (n+1) st (typeName :: rest) fs addRef true =
        .error (.msg ("unable to find discriminator field: " ++ propertyName ++
          ", in schema: " ++ obj.attrs.id))) ∧
    (∀ props, obj.properties = some props → (lookupStr propertyName props).isSome →
      unionRefLoop env (n+1) st (typeName :: rest) fs addRef true =
        unionRefLoop env n st1 rest (addRef fs (AddSchemaRefLinkPrefix obj.attrs.id)) addRef true) ∧
    (obj.properties = none →
      unionRefLoop env (n+1) st (typeName :: rest) fs addRef true =
        unionRefLoop env n st1 rest (addRef fs (AddSchemaRefLinkPrefix obj.attrs.id)) addRef true) := by
  have hd : tagGet tag "discriminator" ≠ "" := by rw [hdisc]; exact hpn
  refine ⟨?_, ?_, ?_, ?_⟩
  · rw [handleOneOfTag]
    rw [if_pos hone, if_pos hd, hdisc]
  · intro props hp hnone
    rw [unionRefLoop, hres]
    dsimp only
    rw [hfs, hp]
    dsimp only
    rw [hnone]
    rfl
  · intro props hp hsome
    rw [unionRefLoop, hres]
    dsimp only
    rw [hfs, hp]
    dsimp only
    obtain ⟨x, hx⟩ := Option.isSome_iff_exists.mp hsome
    rw [hx]
    rfl
  · intro hp
    rw [unionRefLoop, hres]
    dsimp only
    rw [hfs, hp]
    rfl

/-- Concrete instantiation of the C4 amended theorem: on `envArr` the
single member `Arr` resolves to a schema without properties and the loop
continues instead of erroring. -/
theorem C4_discriminator_validation_witness :
    ∃ obj st1,
      parseSchemaObject envArr 19 ({} : PState) "" "" "" "Arr" = .ok (obj, st1) ∧
      obj.properties = none ∧
      unionRefLoop envArr 20 {} ["Arr"]
          (SchemaObject.empty.withAttrs (fun a => { a with discriminator := some "kind" }))
          (fun fs r => fs.withAttrs (fun a => { a with oneOf := a.oneOf ++ [r] })) true =
        unionRefLoop envArr 19 st1 []
          ((SchemaObject.empty.withAttrs (fun a => { a with discriminator := some "kind" })).withAttrs
            (fun a => { a with oneOf := a.oneOf ++ [AddSchemaRefLinkPrefix obj.attrs.id] }))
          (fun fs r => fs.withAttrs (fun a => { a with oneOf := a.oneOf ++ [r] })) true := by
  refine ⟨_, _, rfl, rfl, ?_⟩
  exact (C4_discriminator_validation envArr 19 {} [("oneOf", "Arr"), ("discriminator", "kind")]
    SchemaObject.empty "kind" (by decide) rfl (by decide) "Arr" [] _ _
    (fun fs r => fs.withAttrs (fun a => { a with oneOf := a.oneOf ++ [r] }))
    (SchemaObject.empty.withAttrs (fun a => { a with discriminator := some "kind" }))
    rfl rfl).2.2.2 rfl

/-- The memo stub registered for `T` before its body is examined. -/
def c2so : SchemaObject :=
  SchemaObject.empty.withAttrs (fun a => { a with pkgName := "main", id := GenSchemaObjectID "T" })

/-- C2: contrary to the claim, resolution of the self-referential struct
`type T struct` with a single field `F []T` does not terminate: the `[]` branch of
`parseSchemaObject` recurses into the element type BEFORE consulting the
memo registry, so `T -> tail -> struct fields -> []T -> T` repeats with no
base case; for every fuel bound the embedded run reports exhaustion. -/
theorem C2_self_array_diverges :
    ∀ n st pp fn, parseSchemaObject envSelfRef n st pp "main" fn "T" = .error .fuel := by
  intro n
  induction n using Nat.strong_induction_on with
  | _ n IH =>
  rcases n with _ | n
  · intro st pp fn; rfl
  rcases n with _ | n
  · intro st pp fn; rfl
  rcases n with _ | n
  · intro st pp fn; rfl
  rcases n with _ | n
  · intro st pp fn; rfl
  rcases n with _ | n
  · intro st pp fn; rfl
  rcases n with _ | n
  · intro st pp fn; rfl
  rcases n with _ | n
  · intro st pp fn; rfl
  intro st pp fn
  have H : ∀ st pp fn, parseSchemaObject envSelfRef n st pp "main" fn "T" = .error .fuel :=
    fun st pp fn => IH n (by omega) st pp fn
  have L6 : ∀ st pp fn, parseSchemaObject envSelfRef (n+1) st pp "main" fn "[]T" = .error .fuel := by
    intro st pp fn
    rw [parseSchemaObject]
    rw [if_pos (by decide)]
    dsimp only
    rw [show goStrDrop "[]T" 2 = "T" from rfl]
    rw [H st pp fn]
  have L5 : ∀ st pp, resolveFieldType envSelfRef (n+2) st pp "main"
      (AstType.arrayType (AstType.ident "T")) = .error .fuel := by
    intro st pp
    rw [resolveFieldType]
    dsimp only
    rw [if_pos (by decide)]
    rw [show goTrimLeftStar (getTypeAsString (AstType.arrayType (AstType.ident "T"))) = "[]T" from rfl]
    rw [L6 st pp ""]
    rfl
  have L4 : ∀ st so pp, structFieldsLoop envSelfRef (n+3) st pp "main" so
      [AstField.mk ["F"] (AstType.arrayType (AstType.ident "T")) none] = .error .fuel := by
    intro st so pp
    rw [structFieldsLoop]
    rw [if_neg (by decide)]
    simp only [AstField.typ_mk]
    rw [L5 st pp]
  have L3 : ∀ st so pp, parseSchemaPropertiesFromStructFields envSelfRef (n+4) st pp "main" so
      [AstField.mk ["F"] (AstType.arrayType (AstType.ident "T")) none] = .error .fuel := by
    intro st so pp
    exact L4 _ _ _
  have L2 : ∀ st so pp, handleStructType envSelfRef (n+5) st so
      [AstField.mk ["F"] (AstType.arrayType (AstType.ident "T")) none] pp "main" = .error .fuel := by
    intro st so pp
    exact L3 _ _ _
  have L1 : ∀ st pp fn so, parseSchemaObjectTail envSelfRef (n+6) st pp "main" fn so tSelfSpec =
      .error .fuel := by
    intro st pp fn so
    rw [parseSchemaObjectTail]
    dsimp only [tSelfSpec]
    rw [L2 st so pp]
  exact L1 (memoSet "T" c2so (memoSet "T" c2so st)) pp fn c2so

/-- Registry stability: every schema already present under a key is still
found unchanged under that key, and key distinctness is preserved. -/
def CompsPreserved (l l' : List (String × SchemaObject)) : Prop :=
  (∀ k v, lookupStr k l = some v → lookupStr k l' = some v) ∧
  ((l.map Prod.fst).Nodup → (l'.map Prod.fst).Nodup)

theorem CompsPreserved.refl (l : List (String × SchemaObject)) : CompsPreserved l l :=
  ⟨fun _ _ h => h, fun h => h⟩

theorem CompsPreserved.trans {a b c : List (String × SchemaObject)}
    (h1 : CompsPreserved a b) (h2 : CompsPreserved b c) : CompsPreserved a c :=
  ⟨fun k v h => h2.1 k v (h1.1 k v h), fun h => h2.2 (h1.2 h)⟩

theorem CompsPreserved.insert (k : String) (v : SchemaObject)
    (l : List (String × SchemaObject)) : CompsPreserved l (insertIfAbsent k v l) :=
  ⟨fun k' v' h => lookupStr_insertIfAbsent_of_some k' k v v' _ h,
   fun h => nodup_insertIfAbsent k v _ h⟩

/-- The result of a resolver call preserves the schema registry. -/
def PRok {α : Type} (r : Except PErr (α × PState)) (st : PState) : Prop :=
  ∀ x st', r = .ok (x, st') → CompsPreserved st.componentsSchemas st'.componentsSchemas

set_option maxHeartbeats 1000000 in
/-- Every function of the mutual resolver block preserves the schema
registry: existing `Components.Schemas` entries survive unchanged and key
distinctness is kept (the only write is the guarded insert in
`parseSchemaObjectTail`). Proven for all fuel bounds simultaneously by
strong induction. -/
theorem resolverPreserves : ∀ n,
    (∀ env st pp pn tn, PRok (registerType env n st pp pn tn) st) ∧
    (∀ env st pp pn fn tn, PRok (parseSchemaObject env n st pp pn fn tn) st) ∧
    (∀ env st pp pn fn so ts, PRok (parseSchemaObjectTail env n st pp pn fn so ts) st) ∧
    (∀ env st so fields pp pn, PRok (handleStructType env n st so fields pp pn) st) ∧
    (∀ env st pp pn so fields, PRok (parseSchemaPropertiesFromStructFields env n st pp pn so fields) st) ∧
    (∀ env st pp pn ft, PRok (resolveFieldType env n st pp pn ft) st) ∧
    (∀ env st pp pn so fields, PRok (structFieldsLoop env n st pp pn so fields) st) ∧
    (∀ env st nm tag ss fs req, PRok (parseFieldTags env n st nm tag ss fs req) st) ∧
    (∀ env st tag fs, PRok (handleAllOfTag env n st tag fs) st) ∧
    (∀ env st tag fs, PRok (handleOneOfTag env n st tag fs) st) ∧
    (∀ env st tag fs, PRok (handleAnyOfTag env n st tag fs) st) ∧
    (∀ env st names fs addRef chk, PRok (unionRefLoop env n st names fs addRef chk) st) ∧
    (∀ env st so elt pp pn, PRok (handleArrayType env n st so elt pp pn) st) ∧
    (∀ env st fn so v pp pn, PRok (handleMapType env n st fn so v pp pn) st) := by
  intro n
  induction n using Nat.strong_induction_on with
  | _ n IH =>
  rcases n with _ | m
  · refine ⟨?_, ?_, ?_, ?_, ?_, ?_, ?_, ?_, ?_, ?_, ?_, ?_, ?_, ?_⟩ <;>
      (intros; intro x st' h; exact absurd h (by simp [registerType, parseSchemaObject,
        parseSchemaObjectTail, handleStructType, parseSchemaPropertiesFromStructFields,
        resolveFieldType, structFieldsLoop, parseFieldTags, handleAllOfTag, handleOneOfTag,
        handleAnyOfTag, unionRefLoop, handleArrayType, handleMapType]))
  obtain ⟨ihReg, ihParse, ihTail, ihStruct, ihProps, ihResolve, ihLoop, ihTags,
    ihAll, ihOne, ihAny, ihUnion, ihArr, ihMap⟩ := IH m (by omega)
  refine ⟨?_, ?_, ?_, ?_, ?_, ?_, ?_, ?_, ?_, ?_, ?_, ?_, ?_, ?_⟩
  · -- registerType
    intro env st pp pn tn x st' h
    rw [registerType] at h
    split at h
    · cases h; exact CompsPreserved.refl _
    · split at h
      · cases h; exact CompsPreserved.refl _
      · split at h
        · exact absurd h (by simp)
        · rename_i heq
          cases h
          exact ihParse _ _ _ _ _ _ _ _ heq
  · -- parseSchemaObject
    intro env st pp pn fn tn x st' h
    rw [parseSchemaObject] at h
    by_cases hc1 : goHasPrefix tn "[]" = true
    · rw [if_pos hc1] at h
      dsimp only at h
      rcases hP : parseSchemaObject env m st pp pn fn (goStrDrop tn 2) with e | ⟨items, st1⟩ <;>
        rw [hP] at h <;> dsimp only at h
      · exact (Except.noConfusion h)
      · rcases hL : lookupStr (GenSchemaObjectID (goStrDrop tn 2)) st1.knownIDSchema with _ | schema <;>
          rw [hL] at h <;> dsimp only at h <;> cases h <;>
          exact ihParse _ _ _ _ _ _ _ _ hP
    rw [if_neg hc1] at h
    by_cases hc2 : goHasPrefix tn "map[]" = true
    · rw [if_pos hc2] at h
      dsimp only at h
      rcases hL : lookupStr (GenSchemaObjectID (goStrDrop tn 5)) st.knownIDSchema with _ | schema <;>
        rw [hL] at h <;> dsimp only at h
      · rcases hP : parseSchemaObject env m st pp pn fn (goStrDrop tn 5) with e | ⟨sp, st1⟩ <;>
          rw [hP] at h <;> dsimp only at h
        · exact (Except.noConfusion h)
        · cases h
          exact ihParse _ _ _ _ _ _ _ _ hP
      · cases h
        exact CompsPreserved.refl _
    rw [if_neg hc2] at h
    by_cases hc3 : tn = GoTypeTime
    · rw [if_pos hc3] at h
      cases h
      exact CompsPreserved.refl _
    rw [if_neg hc3] at h
    by_cases hc4 : goHasPrefix tn "interface{}" = true
    · rw [if_pos hc4] at h
      cases h
      exact CompsPreserved.refl _
    rw [if_neg hc4] at h
    by_cases hc5 : IsGoTypeOASType tn = true
    · rw [if_pos hc5] at h
      cases h
      exact CompsPreserved.refl _
    rw [if_neg hc5] at h
    dsimp only at h
    by_cases hc6 : (decide ((goSplitChar tn '.').length = 1) && decide ((goSplitChar tn '.').headD "" ≠ GoTypeIgnored)) = true
    · rw [if_pos hc6] at h
      rcases hG : getTypeSpec env pn tn with _ | ts
      · rw [hG] at h
        dsimp only at h
        rcases hF : env.knownPkgs.find? (fun value => (getTypeSpec env value.name tn).isSome) with _ | pkg <;>
          rw [hF] at h <;> dsimp only at h
        · exact (Except.noConfusion h)
        · rcases hG2 : getTypeSpec env pkg.name tn with _ | ts2 <;> rw [hG2] at h <;> dsimp only at h
          · exact (Except.noConfusion h)
          · have := ihTail _ _ _ _ _ _ _ _ _ h
            exact this
      · rw [hG] at h
        dsimp only at h
        have := ihTail _ _ _ _ _ _ _ _ _ h
        exact this
    · rw [if_neg hc6] at h
      try dsimp only at h
      rcases hG : getTypeSpec env
          (match env.knownPkgs.find? (fun p : Pkg => goContains p.name (goJoin "/" (goSplitChar tn '.').dropLast)) with
            | some p => (p.name, p.path)
            | none => (goJoin "/" (goSplitChar tn '.').dropLast, "")).1
          ((goSplitChar tn '.').getLastD "") with _ | ts
      · rw [hG] at h
        dsimp only at h
        split at h
        · cases h
          exact CompsPreserved.refl _
        · split at h
          · exact (Except.noConfusion h)
          · split at h
            · exact (Except.noConfusion h)
            · have := ihTail _ _ _ _ _ _ _ _ _ h
              exact this
      · rw [hG] at h
        dsimp only at h
        have := ihTail _ _ _ _ _ _ _ _ _ h
        exact this
  · -- parseSchemaObjectTail
    intro env st pp pn fn so ts x st' h
    rw [parseSchemaObjectTail] at h
    dsimp only at h
    rcases hT : ts.typ with nm | flds | elt | v | _ | y | ⟨pa, sel⟩ <;> rw [hT] at h <;> dsimp only at h
    case structType =>
      rcases hS : handleStructType env m st so flds pp pn with e | ⟨so2, st1⟩ <;>
        rw [hS] at h <;> dsimp only at h
      · exact (Except.noConfusion h)
      · cases h
        refine CompsPreserved.trans ?_ (CompsPreserved.insert _ _ _)
        have := ihStruct _ _ _ _ _ _ _ _ hS
        exact this
    case arrayType =>
      rcases hS : handleArrayType env m st so elt pp pn with e | ⟨so2, st1⟩ <;>
        rw [hS] at h <;> dsimp only at h
      · exact (Except.noConfusion h)
      · cases h
        refine CompsPreserved.trans ?_ (CompsPreserved.insert _ _ _)
        have := ihArr _ _ _ _ _ _ _ _ hS
        exact this
    case mapType =>
      rcases hS : handleMapType env m st fn so v pp pn with e | ⟨so2, st1⟩ <;>
        rw [hS] at h <;> dsimp only at h
      · exact (Except.noConfusion h)
      · cases h
        refine CompsPreserved.trans ?_ (CompsPreserved.insert _ _ _)
        have := ihMap _ _ _ _ _ _ _ _ _ hS
        exact this
    all_goals cases h
    all_goals exact CompsPreserved.insert _ _ _
  · -- handleStructType
    intro env st so fields pp pn x st' h
    rw [handleStructType] at h
    have := ihProps _ _ _ _ _ _ _ _ h
    exact this
  · -- parseSchemaPropertiesFromStructFields
    intro env st pp pn so fields x st' h
    rw [parseSchemaPropertiesFromStructFields] at h
    have := ihLoop _ _ _ _ _ _ _ _ h
    exact this
  · -- resolveFieldType
    intro env st pp pn ft x st' h
    rw [resolveFieldType] at h
    try dsimp only at h
    iterate 8 (all_goals try split at h)
    all_goals try exact (Except.noConfusion h)
    all_goals try cases h
    all_goals first
      | exact CompsPreserved.refl _
      | solve_by_elim [ihParse, ihReg]
  · -- structFieldsLoop
    intro env st pp pn so fields x st' h
    rcases fields with _ | ⟨f, rest⟩
    · rw [structFieldsLoop] at h
      cases h
      exact CompsPreserved.refl _
    · rw [structFieldsLoop] at h
      try dsimp only at h
      iterate 12 (all_goals try split at h)
      all_goals try exact (Except.noConfusion h)
      all_goals try cases h
      all_goals first
        | exact CompsPreserved.refl _
        | solve_by_elim [ihResolve, ihTags, ihLoop, CompsPreserved.trans]
        | exact CompsPreserved.trans (ihResolve _ _ _ _ _ _ _ (by assumption))
            (by have := ihLoop _ _ _ _ _ _ _ _ h; exact this)
        | exact CompsPreserved.trans (ihResolve _ _ _ _ _ _ _ (by assumption))
            (CompsPreserved.trans (ihTags _ _ _ _ _ _ _ _ _ (by assumption))
              (by have := ihLoop _ _ _ _ _ _ _ _ h; exact this))
  · -- parseFieldTags
    intro env st nm tag ss fs req x st' h
    rw [parseFieldTags] at h
    try dsimp only at h
    iterate 8 (all_goals try split at h)
    all_goals try exact (Except.noConfusion h)
    all_goals try cases h
    all_goals first
      | exact CompsPreserved.refl _
      | solve_by_elim [ihAll, ihOne, ihAny, CompsPreserved.trans]
      | exact CompsPreserved.trans (ihAll _ _ _ _ _ _ (by assumption))
          (CompsPreserved.trans (ihOne _ _ _ _ _ _ (by assumption))
            (ihAny _ _ _ _ _ _ (by assumption)))
  · -- handleAllOfTag
    intro env st tag fs x st' h
    rw [handleAllOfTag] at h
    split at h
    · exact ihUnion _ _ _ _ _ _ _ _ h
    · cases h; exact CompsPreserved.refl _
  · -- handleOneOfTag
    intro env st tag fs x st' h
    rw [handleOneOfTag] at h
    split at h
    · exact ihUnion _ _ _ _ _ _ _ _ h
    · cases h; exact CompsPreserved.refl _
  · -- handleAnyOfTag
    intro env st tag fs x st' h
    rw [handleAnyOfTag] at h
    split at h
    · exact ihUnion _ _ _ _ _ _ _ _ h
    · cases h; exact CompsPreserved.refl _
  · -- unionRefLoop
    intro env st names fs addRef chk x st' h
    rcases names with _ | ⟨tn, rest⟩
    · rw [unionRefLoop] at h
      cases h
      exact CompsPreserved.refl _
    · rw [unionRefLoop] at h
      dsimp only at h
      split at h
      · exact absurd h (by simp)
      · split at h
        · exact absurd h (by simp)
        · solve_by_elim [ihParse, ihUnion, CompsPreserved.trans]
  · -- handleArrayType
    intro env st so elt pp pn x st' h
    rw [handleArrayType] at h
    try dsimp only at h
    iterate 5 (all_goals try split at h)
    all_goals try exact (Except.noConfusion h)
    all_goals cases h
    all_goals first
      | exact CompsPreserved.refl _
      | (rename_i heq
         have := ihReg _ _ _ _ _ _ _ heq
         exact this)
  · -- handleMapType
    intro env st fn so v pp pn x st' h
    rw [handleMapType] at h
    try dsimp only at h
    iterate 5 (all_goals try split at h)
    all_goals try exact (Except.noConfusion h)
    all_goals cases h
    all_goals first
      | exact CompsPreserved.refl _
      | (rename_i heq
         have := ihReg _ _ _ _ _ _ _ heq
         exact this)

set_option maxHeartbeats 2000000 in
/-- C1 counterexample: resolving `T` (holding `M map[string]Fruit`) twice
from the same call site does NOT return schemas with the same structural
content: the first pass inlines the fully resolved `Fruit` property map,
while the second pass — with `Fruit` now memoized — takes the memo-hit
branch of the `map[]` case and emits a `$ref`-shaped items placeholder
instead. -/
theorem C1_second_resolution_differs :
    ∃ so1 st1 so2 st2,
      parseSchemaObject envTM 30 {} "/m" "main" "" "T" = .ok (so1, st1) ∧
      parseSchemaObject envTM 30 st1 "/m" "main" "" "T" = .ok (so2, st2) ∧
      (∃ p1, lookupStr "M" (so1.properties.getD []) = some p1 ∧
        p1.properties.isSome = true ∧ p1.items.isSome = false) ∧
      (∃ p2, lookupStr "M" (so2.properties.getD []) = some p2 ∧
        p2.properties.isSome = false ∧ p2.items.isSome = true) := by
  exact ⟨_, _, _, _, rfl, rfl, ⟨_, rfl, rfl, rfl⟩, ⟨_, rfl, rfl, rfl⟩⟩

/-- C1 (amended): re-resolving a type name with a memoized schema returns
the memoized ID without touching the state, and every resolver run
preserves the document schema registry: entries of
`OpenAPI.Components.Schemas` are never overwritten (the insert is guarded
by a lookup) and key distinctness is preserved, so a type resolved twice
still has exactly one registry entry; the returned schema of the second
resolution, however, need not be structurally identical to the first. -/
theorem C1_registry_stability :
    (∀ env n st pp pn tn obj,
      lookupStr (GenSchemaObjectID tn) st.knownIDSchema = some obj →
      IsBasicGoType tn = false →
      registerType env (n+1) st pp pn tn = .ok (obj.attrs.id, st)) ∧
    (∀ env n st pp pn fn tn so st',
      parseSchemaObject env n st pp pn fn tn = .ok (so, st') →
      (∀ k v, lookupStr k st.componentsSchemas = some v →
        lookupStr k st'.componentsSchemas = some v) ∧
      ((st.componentsSchemas.map Prod.fst).Nodup →
        (st'.componentsSchemas.map Prod.fst).Nodup)) := by
  constructor
  · intro env n st pp pn tn obj hmemo hbasic
    rw [registerType]
    rw [if_neg (by simp [hbasic])]
    rw [hmemo]
  · intro env n st pp pn fn tn so st' h
    exact (resolverPreserves n).2.1 env st pp pn fn tn so st' h

set_option maxHeartbeats 2000000 in
/-- Concrete instantiation of the C1 amended theorem on `envTM`. -/
theorem C1_registry_stability_witness :
    ∃ so1 st1,
      parseSchemaObject envTM 30 ({} : PState) "/m" "main" "" "T" = .ok (so1, st1) ∧
      (∃ obj, lookupStr "T" st1.knownIDSchema = some obj ∧
        registerType envTM 31 st1 "/m" "main" "T" = .ok (obj.attrs.id, st1)) ∧
      (st1.componentsSchemas.map Prod.fst).Nodup := by
  refine ⟨_, _, rfl, ⟨_, rfl, ?_⟩, ?_⟩
  · exact C1_registry_stability.1 envTM 30 _ "/m" "main" "T" _ rfl rfl
  · exact (C1_registry_stability.2 envTM 30 {} "/m" "main" "" "T" _ _ rfl).2 (by decide)

end Goas
